import Mathlib

/-!
Shallow embedding of `django-simplegetapi` (src/simplegetapi/views.py and
src/simplegetapi/serializers.py): the query-translation engine
(`do_api_search`, `normalize_field_value`, `get_model_filterable_fields`)
and the serialization engine (`serialize_object`, the XML `make_node`).
Python values are modelled by the inductive `Py`; machine behaviour such as
exceptions is modelled with `Except`/error constructors.
-/

namespace SimpleGetApi

/-- Model of a Python `datetime.datetime` value (what `dateutil.parser.parse`
returns; `datetime.datetime.min` supplies zero time components). -/
structure PyDateTime where
  year : Nat
  month : Nat
  day : Nat
  hour : Nat
  minute : Nat
  second : Nat
deriving DecidableEq, Repr

/-- Errors raised by `normalize_field_value`: Python `ValueError` (carrying the
message) and the `AttributeError` raised by `v.lower()` when `v` is not a
string. -/
inductive NormError where
  | valueError (msg : String)
  | attributeError
deriving DecidableEq, Repr

/-- Model of the Django field classes the source dispatches on
(`BooleanField`, `DateField`, `DateTimeField`, anything else). -/
inductive DjangoFieldType where
  | booleanField
  | dateField
  | dateTimeField
  | otherField
deriving DecidableEq, Repr

/-- One enum choice: (raw database integer value, key, label). The source's
`is_enum` recognises `common.enum` classes / Python enums; plain Django
choice lists are modelled as `Option.none` on the field. -/
abbrev EnumChoices := List (Int × String × Option String)

/-- Model of a Django ORM model field's metadata used by views.py:
name, nullability, class, enum choices, and `db_index`. -/
structure DjangoField where
  name : String
  null : Bool
  ftype : DjangoFieldType
  choices : Option EnumChoices
  db_index : Bool
deriving DecidableEq, Repr

/-- Model of an ORM model class's metadata used by views.py: its fields,
`Meta.unique_together`, and the `api_filter_if` / `haystack_index` /
`haystack_index_extra` attributes. -/
structure ApiModel where
  fields : List DjangoField
  unique_together : List (List String)
  api_filter_if : List (String × List String)
  haystack_index : List String
  haystack_index_extra : List (String × String)
deriving DecidableEq, Repr

/-- Whether the first list is a leading run of the second. -/
def listStartsWith : List Char → List Char → Bool
  | [], _ => true
  | _ :: _, [] => false
  | n :: ns, h :: hs => n = h && listStartsWith ns hs

/-- Whether the first list occurs contiguously inside the second. -/
def listInfix (needle : List Char) : List Char → Bool
  | [] => listStartsWith needle []
  | h :: hs => listStartsWith needle (h :: hs) || listInfix needle hs

/-- Python's substring test `needle in haystack` on strings. -/
def pySubstr (needle haystack : String) : Bool :=
  listInfix needle.toList haystack.toList

/-- Python `str.lower` restricted to ASCII, which is what `v.lower()` does on
the query-string values the source compares against `"null"`. -/
def pyLower (s : String) : String :=
  String.mk (s.toList.map Char.toLower)

/-- Python `s.startswith(pre)`. -/
def pyStartsWith (s pre : String) : Bool :=
  listStartsWith pre.toList s.toList

/-- Python `s[n:]` by characters. -/
def pyDrop (n : Nat) (s : String) : String :=
  String.mk (s.toList.drop n)

/-- Parses a digit string to a natural number; `Option.none` when empty or a
character is not a digit. -/
def digitsToNat (cs : List Char) : Option Nat :=
  if cs = [] then Option.none
  else cs.foldl (fun acc c =>
    match acc with
    | Option.none => Option.none
    | some n => if c.isDigit then some (n * 10 + (c.toNat - 48)) else Option.none)
    (some 0)

/-- Python `int(s)` on a decimal string: optional sign then digits
(whitespace and underscore forms are outside the model's inputs). -/
def pyInt (s : String) : Option Int :=
  match s.toList with
  | '-' :: ds => (digitsToNat ds).map (fun n => -(n : Int))
  | '+' :: ds => (digitsToNat ds).map (fun n => (n : Int))
  | ds => (digitsToNat ds).map (fun n => (n : Int))

/-- Python `s.split("|")` over the character list: splitting on `'|'`
always yields at least one (possibly empty) group. -/
def splitPipeChars : List Char → List (List Char)
  | [] => [[]]
  | c :: rest =>
    if c = '|' then [] :: splitPipeChars rest
    else
      match splitPipeChars rest with
      | [] => [[c]]
      | g :: gs => (c :: g) :: gs

/-- Python `s.split("|")` on strings. -/
def pySplitPipe (s : String) : List String :=
  (splitPipeChars s.toList).map String.mk

/-- Python `s.rsplit("__", 1)` over the character list: splits off the part
after the rightmost occurrence of `__` (a match found further right in the
tail wins over a match at the head); `Option.none` when `__` does not
occur. -/
def rsplit2Chars : List Char → Option (List Char × List Char)
  | [] => Option.none
  | [_] => Option.none
  | c1 :: c2 :: rest =>
    Option.elim (rsplit2Chars (c2 :: rest))
      (if c1 = '_' && c2 = '_' then some ([], rest) else Option.none)
      (fun p => some (c1 :: p.1, p.2))

/-- Python `arg.rsplit("__", 1)` on strings, as `Option.none` when there is a
single part. -/
def pyRsplit2 (s : String) : Option (String × String) :=
  (rsplit2Chars s.toList).map (fun p => (String.mk p.1, String.mk p.2))

/-- Whether a character list contains the two-character pattern `__`. -/
def hasDunder : List Char → Bool
  | [] => false
  | c :: rest => (c = '_' && rest.headD ' ' = '_') || hasDunder rest

/-- Python dict assignment `d[k] = v` on an association list: replaces in
place when the key exists (keeping its position, as CPython dicts do),
otherwise appends. -/
def dictInsert (k : String) (v : α) : List (String × α) → List (String × α)
  | [] => [(k, v)]
  | (k0, v0) :: rest =>
    if k0 = k then (k, v) :: rest else (k0, v0) :: dictInsert k v rest

/-- Python dict lookup `d.get(k)` on an association list. -/
def dictGet? (k : String) (d : List (String × α)) : Option α :=
  (d.find? (fun kv => kv.1 = k)).map (fun kv => kv.2)

/-- The computation of `is_bool` in `normalize_field_value` (views.py
lines 303-309): the field is a `BooleanField`, or `haystack_index_extra`
names it with a type that is a substring of `"Boolean"` (the source tests
`fieldtype in ("Boolean")`, which in Python is a substring test on the
parenthesised string, not tuple membership). -/
def isBoolField (model : ApiModel) (modelfield : Option DjangoField) : Bool :=
  match modelfield with
  | Option.none => false
  | some mf =>
    (mf.ftype = DjangoFieldType.booleanField) ||
    (model.haystack_index_extra.any (fun fe => fe.1 = mf.name && pySubstr fe.2 "Boolean"))

/-- The computation of `is_dt` in `normalize_field_value` (views.py
lines 335-341): the field is a `DateField`/`DateTimeField`, or
`haystack_index_extra` names it with type in the tuple `("Date", "DateTime")`. -/
def isDtField (model : ApiModel) (modelfield : Option DjangoField) : Bool :=
  match modelfield with
  | Option.none => false
  | some mf =>
    (mf.ftype = DjangoFieldType.dateField || mf.ftype = DjangoFieldType.dateTimeField) ||
    (model.haystack_index_extra.any (fun fe =>
      fe.1 = mf.name && (fe.2 = "Date" || fe.2 = "DateTime")))

/-- The `choices` value consulted by `normalize_field_value` (views.py
line 320): the field's choices when a model field is present, else `None`;
`choices and is_enum(choices)` is truthy exactly when the list is nonempty. -/
def fieldChoices (modelfield : Option DjangoField) : EnumChoices :=
  (modelfield.bind DjangoField.choices).getD []

/-- Modelled from the spec: the external `dateutil.parser.parse` collaborator,
restricted to ISO `YYYY-MM-DD` calendar dates; missing time components are
filled from the minimal default (`datetime.datetime.min`), and any other
input fails. -/
def dateutil_parse (s : String) : Option PyDateTime :=
  match s.toList with
  | [y1, y2, y3, y4, '-', m1, m2, '-', d1, d2] =>
    if y1.isDigit && y2.isDigit && y3.isDigit && y4.isDigit &&
       m1.isDigit && m2.isDigit && d1.isDigit && d2.isDigit then
      let y := (y1.toNat - 48) * 1000 + (y2.toNat - 48) * 100 + (y3.toNat - 48) * 10 + (y4.toNat - 48)
      let m := (m1.toNat - 48) * 10 + (m2.toNat - 48)
      let d := (d1.toNat - 48) * 10 + (d2.toNat - 48)
      if 1 ≤ m && m ≤ 12 && 1 ≤ d && d ≤ 31 then
        some { year := y, month := m, day := d, hour := 0, minute := 0, second := 0 }
      else Option.none
    else Option.none
  | _ => Option.none

mutual
/-- Model of the Python values flowing through the API: basic data types,
dates, decimals, ORM model instances (`obj`), and a constructor `other` for
any object of an unrecognised type, carrying its `unicode(obj)` rendering. -/
inductive Py where
  | pynone
  | pybool (b : Bool)
  | pyint (n : Int)
  | pyfloat (r : String)
  | pystr (s : String)
  | pylist (xs : List Py)
  | pydict (kvs : List (String × Py))
  | pydate (d : PyDateTime)
  | pydecimal (r : String)
  | pyobj (fields : List (String × PgField))
  | pyother (r : String)

/-- Model of one ORM field of a model instance, as dispatched on by
`serialize_object`: a `ForeignKey` (carrying the cached `<name>_id` value and
the related object), a `RelatedObject` reverse relation (carrying the related
instances its manager would yield), a `ManyToManyField`, a plain field
(carrying its choices and its value), or an `api_additional_fields` computed
field whose attribute/function dispatch is collapsed to the resolved value. -/
inductive PgField where
  | foreignKey (idv : Py) (target : Py)
  | relatedObject (items : List Py)
  | manyToMany (items : List Py)
  | plain (choices : Option EnumChoices) (v : Py)
  | computed (v : Py)
end

/-- Converts "null" to `None`, booleans, enum keys and ISO dates to typed
values, passing other strings through: views.py lines 296-349
(`normalize_field_value`). A non-string argument raises `AttributeError` at
the initial `v.lower()` call. -/
def normalize_field_value (model : ApiModel) (modelfield : Option DjangoField) :
    Py → Except NormError Py
  | Py.pystr v =>
    if pyLower v = "null" then
      if (match modelfield with | some mf => !mf.null | Option.none => false) then
        Except.error (NormError.valueError "Field cannot be null.")
      else
        Except.ok Py.pynone
    else if isBoolField model modelfield then
      if v = "true" then Except.ok (Py.pybool true)
      else if v = "false" then Except.ok (Py.pybool false)
      else Except.error (NormError.valueError "Invalid boolean (must be 'true' or 'false').")
    else if fieldChoices modelfield ≠ [] then
      match (fieldChoices modelfield).find? (fun c => c.2.1 = v) with
      | some c => Except.ok (Py.pyint c.1)
      | Option.none =>
        Except.error (NormError.valueError
          (v ++ " is not a valid value; possibly values are "
            ++ String.intercalate ", " ((fieldChoices modelfield).map (fun c => c.2.1))))
    else if isDtField model modelfield then
      match dateutil_parse v with
      | some d => Except.ok (Py.pydate d)
      | Option.none => Except.error (NormError.valueError "Invalid date.")
    else
      Except.ok (Py.pystr v)
  | _ => Except.error NormError.attributeError

/-- The query parameters that are not filters (views.py line 141). -/
def reservedArgs : List String := ["offset", "limit", "format", "fields", "callback"]

/-- The operator suffixes recognised on line 179 of views.py. -/
def knownOperators : List String :=
  ["contains", "exact", "gt", "gte", "lt", "lte", "in", "startswith", "range"]

/-- Splits a single-occurrence filter key into (field name, operator):
views.py lines 171-188. The key is rsplit on the last `__`; a suffix that is
not a known operator is folded back into the field name; with no `__` (or
after folding back) the implicit operator is `exact`. -/
def split_filter_arg (arg : String) : String × String :=
  match pyRsplit2 arg with
  | some (a, b) =>
    if b ∈ knownOperators then (a, b) else (a ++ "__" ++ b, "exact")
  | Option.none => (arg, "exact")

/-- One operation applied to the queryset `qs` while translating the query
string: a single-value `filter(**{kw: v})`, a multi-value
`filter(**{kw: vs})`, the Haystack `filter(content=q)` shortcut, or
`order_by`. -/
inductive QsOp where
  | filterSingle (kw : String) (v : Py)
  | filterMulti (kw : String) (vs : List Py)
  | filterContent (q : String)
  | order_by (spec : String)

/-- The two queryset kinds accepted by `do_api_call` (views.py line 55). -/
inductive QSType where
  | querySet
  | searchQuerySet
deriving DecidableEq, Repr

/-- The state threaded through the filter loop of `do_api_search`: the
operations applied to `qs`, the pending sort spec `qs_sort`, and the
`qs_filters` dict mapping each filtered field name to its operator and
model field. -/
structure SearchState where
  ops : List QsOp
  qs_sort : Option (String × String)
  qs_filters : List (String × (String × Option DjangoField))

/-- The initial state of the filter loop. -/
def SearchState.initial : SearchState := { ops := [], qs_sort := Option.none, qs_filters := [] }

/-- How processing one query argument can abort: an HTTP 400 with a message,
or an uncaught Python exception (never reachable from string inputs). -/
inductive ProcErr where
  | badRequest (msg : String)
  | internal

/-- Normalizes each raw value in order, stopping at the first error
(the list comprehension on views.py line 203). -/
def normalize_vals (model : ApiModel) (modelfield : Option DjangoField) :
    List String → Except NormError (List Py)
  | [] => Except.ok []
  | v :: rest =>
    match normalize_field_value model modelfield (Py.pystr v) with
    | Except.error e => Except.error e
    | Except.ok nv =>
      match normalize_vals model modelfield rest with
      | Except.error e => Except.error e
      | Except.ok nrest => Except.ok (nv :: nrest)

/-- Processes one `(arg, vals)` pair of the query string exactly as the loop
body of `do_api_search` does (views.py lines 140-222): reserved names are
skipped; `sort`/`order_by` set the sort spec; `q` is the Haystack full-text
shortcut; everything else becomes a field filter, with a repeated key forcing
the `in` operator, pipe-splitting for single-occurrence `in`/`range`, value
normalization, and the `range`/`in` arity checks. -/
def process_query_arg (model : ApiModel) (qs_type : QSType) (st : SearchState)
    (arg : String) (vals : List String) : Except ProcErr SearchState :=
  if arg ∈ reservedArgs then
    Except.ok st
  else if arg = "sort" ∨ arg = "order_by" then
    if vals.length ≠ 1 then
      Except.error (ProcErr.badRequest "Invalid query: Multiple sort parameters.")
    else
      let v := vals.headD ""
      let sort0 : String × String := if pyStartsWith v "-" then (pyDrop 1 v, "-") else (v, "+")
      Except.ok { st with ops := st.ops ++ [QsOp.order_by v], qs_sort := some sort0 }
  else if arg = "q" ∧ qs_type = QSType.searchQuerySet then
    if vals.length ≠ 1 then
      Except.error (ProcErr.badRequest ("Invalid query: Multiple " ++ arg ++ " parameters."))
    else
      Except.ok { st with ops := st.ops ++ [QsOp.filterContent (vals.headD "")] }
  else
    let arg_parts : String × String :=
      if vals.length > 1 then (arg, "in") else split_filter_arg arg
    let fieldname := arg_parts.1
    let matchoperator := arg_parts.2
    let modelfield := model.fields.find? (fun f => f.name = fieldname)
    let vals2 :=
      if (matchoperator = "in" ∨ matchoperator = "range") ∧ vals.length = 1 then
        pySplitPipe (vals.headD "")
      else vals
    match normalize_vals model modelfield vals2 with
    | Except.error (NormError.valueError m) =>
      Except.error (ProcErr.badRequest ("Invalid value for " ++ fieldname ++ " filter: " ++ m))
    | Except.error NormError.attributeError => Except.error ProcErr.internal
    | Except.ok nvals =>
      if matchoperator ≠ "in" ∧ matchoperator ≠ "range" then
        match nvals with
        | [] =>
          Except.error (ProcErr.badRequest
            ("Invalid value for " ++ fieldname ++ " filter: IndexError('list index out of range')"))
        | v0 :: _ =>
          Except.ok { st with
            ops := st.ops ++ [QsOp.filterSingle (fieldname ++ "__" ++ matchoperator) v0],
            qs_filters := dictInsert fieldname (matchoperator, modelfield) st.qs_filters }
      else if matchoperator = "range" ∧ nvals.length ≠ 2 then
        Except.error (ProcErr.badRequest
          "The range operator requires the range to be specified as two values separated by a pipe character (e.g. 100|200).")
      else if matchoperator = "in" ∧ nvals.length = 0 then
        Except.error (ProcErr.badRequest "The in operator requires an argument.")
      else
        Except.ok { st with
          ops := st.ops ++ [QsOp.filterMulti (fieldname ++ "__" ++ matchoperator) nvals],
          qs_filters := dictInsert fieldname (matchoperator, modelfield) st.qs_filters }

/-- Runs the filter loop of `do_api_search` over all query arguments in
order, stopping at the first error. -/
def process_all_args (model : ApiModel) (qs_type : QSType) :
    List (String × List String) → SearchState → Except ProcErr SearchState
  | [], st => Except.ok st
  | (arg, vals) :: rest, st =>
    match process_query_arg model qs_type st arg vals with
    | Except.error e => Except.error e
    | Except.ok st2 => process_all_args model qs_type rest st2

/-- The `indexed_if` dict contribution of one `unique_together` tuple
(views.py lines 365-367): position `i` maps to the tuple's first `i` fields. -/
def add_unique_together (d : List (String × List String)) (ut : List String) :
    List (String × List String) :=
  (List.range ut.length).foldl (fun d i => dictInsert (ut.getD i "") (ut.take i) d) d

/-- Computes which fields may be filtered/sorted on: views.py lines 351-384
(`get_model_filterable_fields`). For a `QuerySet`, fields named `id` or with
`db_index`, plus the `unique_together` dependency dict updated by
`api_filter_if`; for a `SearchQuerySet`, the Haystack-indexed names. -/
def get_model_filterable_fields (model : ApiModel) (qs_type : QSType) :
    List String × List (String × List String) :=
  match qs_type with
  | QSType.querySet =>
    let indexed_fields :=
      (model.fields.filter (fun f => f.name = "id" || f.db_index)).map (fun f => f.name)
    let indexed_if := model.unique_together.foldl add_unique_together []
    let indexed_if := model.api_filter_if.foldl (fun d kv => dictInsert kv.1 kv.2 d) indexed_if
    (indexed_fields, indexed_if)
  | QSType.searchQuerySet =>
    (model.haystack_index ++ model.haystack_index_extra.map (fun fe => fe.1), [])

/-- The body of the filter-validation loop of `do_api_search` (views.py
lines 234-241) for one filtered field: not indexed and not in `indexed_if`
is an error; otherwise every dependency listed in `indexed_if` must itself
be filtered on. Returns the `BadRequest` message, if any. -/
def check_one_filter (indexed_fields : List String)
    (indexed_if : List (String × List String)) (filter_keys : List String)
    (fieldname : String) : Option String :=
  if fieldname ∉ indexed_fields ∧ fieldname ∉ indexed_if.map (fun kv => kv.1) then
    some ("Cannot filter on field: " ++ fieldname)
  else if ((dictGet? fieldname indexed_if).getD []).all (fun f2 => f2 ∈ filter_keys) then
    Option.none
  else
    some ("Cannot filter on field " ++ fieldname ++ " without also filtering on "
      ++ String.intercalate ", " ((dictGet? fieldname indexed_if).getD []))

/-- Validates every entry of `qs_filters` in order, returning the first
`BadRequest` message, if any. -/
def check_filters (indexed_fields : List String)
    (indexed_if : List (String × List String))
    (qs_filters : List (String × (String × Option DjangoField))) : Option String :=
  qs_filters.findSome? (fun kv =>
    check_one_filter indexed_fields indexed_if (qs_filters.map (fun f => f.1)) kv.1)

/-- Django `QueryDict.get(key, default)`: the last value of the key's list,
or the default when the key is absent. -/
def qd_get (params : List (String × List String)) (key default : String) : String :=
  ((dictGet? key params).bind List.getLast?).getD default

/-- The outcome of `do_api_search`: a 400 with its message, an uncaught
exception (unreachable from well-formed query dicts), or success carrying
the queryset operations and the offset/limit whose slice
`qs[offset : offset + limit]` is then taken. -/
inductive SearchResult where
  | badRequest (msg : String)
  | internalError
  | ok (ops : List QsOp) (offset limit : Int)

/-- The sort-field validation of `do_api_search` (views.py lines 230-231). -/
def check_sort (indexed_fields : List String) (qs_sort : Option (String × String)) :
    Option String :=
  match qs_sort with
  | some s => if s.1 ∉ indexed_fields then some ("Cannot sort on field: " ++ s.1) else Option.none
  | Option.none => Option.none

/-- The part of `do_api_search` after the filter loop (views.py
lines 225-268): validates the sort field and the filtered fields against
`get_model_filterable_fields`, parses and bounds `offset`/`limit` (limit over
6000 rejected, offset over 10000 rejected on the `QuerySet` backend), and
only then takes the slice `qs[offset : offset + limit]`. -/
def search_tail (model : ApiModel) (qs_type : QSType)
    (params : List (String × List String)) (st : SearchState) : SearchResult :=
  let fi := get_model_filterable_fields model qs_type
  match check_sort fi.1 st.qs_sort with
  | some m => SearchResult.badRequest m
  | Option.none =>
    match check_filters fi.1 fi.2 st.qs_filters with
    | some m => SearchResult.badRequest m
    | Option.none =>
      match pyInt (qd_get params "offset" "0"), pyInt (qd_get params "limit" "100") with
      | some offset, some limit =>
        if limit > 6000 then
          SearchResult.badRequest "Limit > 6000 is not supported. Consider using our bulk data instead."
        else if qs_type = QSType.querySet ∧ offset > 10000 then
          SearchResult.badRequest "Offset > 10000 is not supported for this data type. Try a __gt filter instead."
        else SearchResult.ok st.ops offset limit
      | _, _ => SearchResult.badRequest "Invalid offset or limit."

/-- Processes an API search request: views.py lines 120-294
(`do_api_search`). Runs the filter loop over the query arguments, then the
validation and pagination tail. The `count()` call and the serialization of
the sliced results are beyond the translation being modelled. -/
def do_api_search (model : ApiModel) (qs_type : QSType)
    (params : List (String × List String)) : SearchResult :=
  match process_all_args model qs_type params SearchState.initial with
  | Except.error (ProcErr.badRequest m) => SearchResult.badRequest m
  | Except.error ProcErr.internal => SearchResult.internalError
  | Except.ok st => search_tail model qs_type params st

/-- Zero-pads a natural number to two digits. -/
def pad2 (n : Nat) : String :=
  if n < 10 then "0" ++ toString n else toString n

/-- Zero-pads a natural number to four digits. -/
def pad4 (n : Nat) : String :=
  if n < 10 then "000" ++ toString n
  else if n < 100 then "00" ++ toString n
  else if n < 1000 then "0" ++ toString n
  else toString n

/-- Python `datetime.isoformat()`. -/
def isoformat (d : PyDateTime) : String :=
  pad4 d.year ++ "-" ++ pad2 d.month ++ "-" ++ pad2 d.day ++ "T"
    ++ pad2 d.hour ++ ":" ++ pad2 d.minute ++ ":" ++ pad2 d.second

/-- The characters before the leftmost occurrence of `__`. -/
def firstSegChars : List Char → List Char
  | [] => []
  | c :: rest =>
    if c = '_' && rest.headD ' ' = '_' then []
    else c :: firstSegChars rest

/-- The first segment of a chained field path: Python `f.split("__", 1)[0]`. -/
def firstSegment (f : String) : String :=
  String.mk (firstSegChars f.toList)

/-- Strips a `prefix__` qualifier: the sub-paths passed to recursive
serialization on serializers.py lines 94 and 97. -/
def stripQualifier (field_name : String) (rs : List String) : List String :=
  (rs.filter (fun r => pyStartsWith r (field_name ++ "__"))).map
    (fun r => pyDrop (field_name.length + 2) r)

/-- Python truthiness of a label: `if label:` is false for `None` and for the
empty string. -/
def labelTruthy : Option String → Bool
  | Option.none => false
  | some l => l ≠ ""

/-- Looks up an enum member by raw database value:
`enum_value_to_key_and_label` in utils.py; a missing value raises `KeyError`
inside `choices.by_value`. -/
def enum_value_to_key_and_label (choices : EnumChoices) (v : Py) :
    Except String (String × Option String) :=
  match v with
  | Py.pyint n =>
    match choices.find? (fun c => c.1 = n) with
    | some c => Except.ok c.2
    | Option.none => Except.error "KeyError"
  | _ => Except.error "KeyError"

/-- Whether a value is Python `None`. -/
def Py.isNone : Py → Bool
  | Py.pynone => true
  | _ => false

mutual
/-- Serializes a Python object to JSON-able data types: serializers.py
lines 19-126 (`serialize_object`). Basic data types (including lists and
dicts) are returned as-is, dates render in ISO format, decimals become
floats, model instances become dicts built field by field, and any other
object type falls back to its string rendering. The only failure is the
`KeyError` escaping an enum lookup on a value outside the declared choices;
`fuel` bounds the recursion depth and is not part of the source. -/
def serialize_object (fuel : Nat) (obj : Py) (recurse_on : List String)
    (requested_fields : Option (List String)) : Except String Py :=
  match fuel with
  | 0 => Except.error "fuel exhausted"
  | fuel + 1 =>
    match obj with
    | Py.pystr s => Except.ok (Py.pystr s)
    | Py.pybool b => Except.ok (Py.pybool b)
    | Py.pyint n => Except.ok (Py.pyint n)
    | Py.pyfloat r => Except.ok (Py.pyfloat r)
    | Py.pylist xs => Except.ok (Py.pylist xs)
    | Py.pydict kvs => Except.ok (Py.pydict kvs)
    | Py.pynone => Except.ok Py.pynone
    | Py.pydate d => Except.ok (Py.pystr (isoformat d))
    | Py.pydecimal r => Except.ok (Py.pyfloat r)
    | Py.pyobj fields =>
      match serialize_fields fuel fields recurse_on requested_fields [] with
      | Except.error e => Except.error e
      | Except.ok ret => Except.ok (Py.pydict ret)
    | Py.pyother r => Except.ok (Py.pystr r)

/-- The field loop of `serialize_object` on a model instance
(serializers.py lines 48-122), threading the `ret` dict: skips fields not in
the projection, emits the cached id for a `ForeignKey` outside `recurse_on`,
skips a `RelatedObject` outside `recurse_on`, expands many-valued relations
inside `recurse_on`, projects enum values to key (and `_label`), and
otherwise serializes the value recursively with the stripped sub-directives. -/
def serialize_fields (fuel : Nat) (fields : List (String × PgField))
    (recurse_on : List String) (requested_fields : Option (List String))
    (ret : List (String × Py)) : Except String (List (String × Py)) :=
  match fields with
  | [] => Except.ok ret
  | (field_name, field) :: rest =>
    match serialize_one_field fuel field_name field recurse_on requested_fields ret with
    | Except.error e => Except.error e
    | Except.ok ret2 => serialize_fields fuel rest recurse_on requested_fields ret2

/-- Processes a single field of the loop: serializers.py lines 48-120. -/
def serialize_one_field (fuel : Nat) (field_name : String) (field : PgField)
    (recurse_on : List String) (requested_fields : Option (List String))
    (ret : List (String × Py)) : Except String (List (String × Py)) :=
  if (match requested_fields with
      | some rf => !((rf.map firstSegment).contains field_name)
      | Option.none => false) then
    Except.ok ret
  else if (match field with
           | PgField.foreignKey _ _ => !(recurse_on.contains field_name)
           | _ => false) then
    match field with
    | PgField.foreignKey idv _ => Except.ok (dictInsert field_name idv ret)
    | _ => Except.ok ret
  else if (match field with
           | PgField.relatedObject _ => !(recurse_on.contains field_name)
           | _ => false) then
    Except.ok ret
  else
    let sub_recurse_on := stripQualifier field_name recurse_on
    let sub_fields := requested_fields.map (stripQualifier field_name)
    match field with
    | PgField.manyToMany items =>
      if field_name ∈ recurse_on then
        match serialize_list fuel items sub_recurse_on sub_fields with
        | Except.error e => Except.error e
        | Except.ok vs => Except.ok (dictInsert field_name (Py.pylist vs) ret)
      else Except.ok ret
    | PgField.relatedObject items =>
      if field_name ∈ recurse_on then
        match serialize_list fuel items sub_recurse_on sub_fields with
        | Except.error e => Except.error e
        | Except.ok vs => Except.ok (dictInsert field_name (Py.pylist vs) ret)
      else Except.ok ret
    | PgField.foreignKey _ target =>
      match serialize_object fuel target sub_recurse_on sub_fields with
      | Except.error e => Except.error e
      | Except.ok sv => Except.ok (dictInsert field_name sv ret)
    | PgField.plain choices v =>
      if !v.isNone && !(choices.getD []).isEmpty then
        match enum_value_to_key_and_label (choices.getD []) v with
        | Except.error e => Except.error e
        | Except.ok (key, label) =>
          let ret2 := dictInsert field_name (Py.pystr key) ret
          if labelTruthy label then
            Except.ok (dictInsert (field_name ++ "_label") (Py.pystr (label.getD "")) ret2)
          else Except.ok ret2
      else
        match serialize_object fuel v sub_recurse_on sub_fields with
        | Except.error e => Except.error e
        | Except.ok sv => Except.ok (dictInsert field_name sv ret)
    | PgField.computed v =>
      match serialize_object fuel v sub_recurse_on sub_fields with
      | Except.error e => Except.error e
      | Except.ok sv => Except.ok (dictInsert field_name sv ret)

/-- Serializes each member of a related set in order
(serializers.py line 109). -/
def serialize_list (fuel : Nat) (items : List Py) (recurse_on : List String)
    (requested_fields : Option (List String)) : Except String (List Py) :=
  match items with
  | [] => Except.ok []
  | x :: rest =>
    match serialize_object fuel x recurse_on requested_fields with
    | Except.error e => Except.error e
    | Except.ok v =>
      match serialize_list fuel rest recurse_on requested_fields with
      | Except.error e => Except.error e
      | Except.ok vs => Except.ok (v :: vs)
end

/-- An XML element as built by `serialize_response_xml`: tag, optional text,
children. -/
inductive XmlNode where
  | element (tag : String) (text : Option String) (children : List XmlNode)

/-- Python `unicode(obj)` for the values `make_node` renders as text:
`unicode(True) = "True"`, `unicode(False) = "False"`, integers in decimal. -/
def pyUnicodeNum : Py → String
  | Py.pybool true => "True"
  | Py.pybool false => "False"
  | Py.pyint n => toString n
  | Py.pyfloat r => r
  | _ => ""

/-- The `unicode(type(obj))` fragment of the XML renderer's error message. -/
def pyTypeName : Py → String
  | Py.pynone => "<type 'NoneType'>"
  | Py.pybool _ => "<type 'bool'>"
  | Py.pyint _ => "<type 'int'>"
  | Py.pyfloat _ => "<type 'float'>"
  | Py.pystr _ => "<type 'str'>"
  | Py.pylist _ => "<type 'list'>"
  | Py.pydict _ => "<type 'dict'>"
  | Py.pydate _ => "<type 'datetime.datetime'>"
  | Py.pydecimal _ => "<class 'decimal.Decimal'>"
  | Py.pyobj _ => "<class 'django.db.models.Model'>"
  | Py.pyother _ => "<type 'object'>"

mutual
/-- The recursive node builder of `serialize_response_xml` (serializers.py
lines 150-168): strings become text; ints, longs, floats — and Python
booleans, which are int instances — become their string rendering; `None`
becomes the text `null`; lists produce repeated `item` children; dicts
produce children named by key in sorted key order; any other type raises
`ValueError`. Returns the (text, children) assigned to the parent element;
`fuel` bounds the recursion depth and is not part of the source. -/
def make_node (fuel : Nat) : Py → Except String (Option String × List XmlNode)
  | Py.pystr s => Except.ok (some s, [])
  | Py.pybool b => Except.ok (some (pyUnicodeNum (Py.pybool b)), [])
  | Py.pyint n => Except.ok (some (pyUnicodeNum (Py.pyint n)), [])
  | Py.pyfloat r => Except.ok (some (pyUnicodeNum (Py.pyfloat r)), [])
  | Py.pynone => Except.ok (some "null", [])
  | Py.pylist xs =>
    match fuel with
    | 0 => Except.error "fuel exhausted"
    | fuel + 1 =>
      match make_node_items fuel xs with
      | Except.error e => Except.error e
      | Except.ok cs => Except.ok (Option.none, cs)
  | Py.pydict kvs =>
    match fuel with
    | 0 => Except.error "fuel exhausted"
    | fuel + 1 =>
      match make_node_entries fuel (kvs.mergeSort (fun a b => a.1 ≤ b.1)) with
      | Except.error e => Except.error e
      | Except.ok cs => Except.ok (Option.none, cs)
  | v => Except.error ("Unhandled data type in XML serialization: " ++ pyTypeName v)

/-- Builds the repeated `item` children of a sequence. -/
def make_node_items (fuel : Nat) : List Py → Except String (List XmlNode)
  | [] => Except.ok []
  | x :: rest =>
    match make_node fuel x with
    | Except.error e => Except.error e
    | Except.ok (t, cs) =>
      match make_node_items fuel rest with
      | Except.error e => Except.error e
      | Except.ok ns => Except.ok (XmlNode.element "item" t cs :: ns)

/-- Builds the key-named children of a mapping (already sorted by key). -/
def make_node_entries (fuel : Nat) : List (String × Py) → Except String (List XmlNode)
  | [] => Except.ok []
  | (k, v) :: rest =>
    match make_node fuel v with
    | Except.error e => Except.error e
    | Except.ok (t, cs) =>
      match make_node_entries fuel rest with
      | Except.error e => Except.error e
      | Except.ok ns => Except.ok (XmlNode.element k t cs :: ns)
end

/-! Concrete fixtures used by witnesses and counterexamples. -/

/-- A model with no fields and no metadata. -/
def emptyModel : ApiModel :=
  { fields := [], unique_together := [], api_filter_if := [],
    haystack_index := [], haystack_index_extra := [] }

/-- A non-nullable `BooleanField` named `flag`. -/
def boolField : DjangoField :=
  { name := "flag", null := false, ftype := DjangoFieldType.booleanField,
    choices := Option.none, db_index := true }

/-- A nullable `BooleanField` named `flag`. -/
def nullableBoolField : DjangoField :=
  { name := "flag", null := true, ftype := DjangoFieldType.booleanField,
    choices := Option.none, db_index := true }

/-- An indexed `DateField` named `createdAt`. -/
def createdAtField : DjangoField :=
  { name := "createdAt", null := false, ftype := DjangoFieldType.dateField,
    choices := Option.none, db_index := true }

/-- A model whose only field is the indexed date field `createdAt`. -/
def dateModel : ApiModel :=
  { fields := [createdAtField], unique_together := [], api_filter_if := [],
    haystack_index := [], haystack_index_extra := [] }

/-- An unindexed plain field named `a`. -/
def fieldA : DjangoField :=
  { name := "a", null := false, ftype := DjangoFieldType.otherField,
    choices := Option.none, db_index := false }

/-- An explicitly indexed plain field named `x`. -/
def fieldX : DjangoField :=
  { name := "x", null := false, ftype := DjangoFieldType.otherField,
    choices := Option.none, db_index := true }

/-- A model where `x` is explicitly indexed but also the second member of the
composite-uniqueness tuple `(a, x)`. -/
def uniqueTogetherModel : ApiModel :=
  { fields := [fieldA, fieldX], unique_together := [["a", "x"]], api_filter_if := [],
    haystack_index := [], haystack_index_extra := [] }

/-- An indexed plain field named `country`. -/
def countryField : DjangoField :=
  { name := "country", null := false, ftype := DjangoFieldType.otherField,
    choices := Option.none, db_index := true }

/-- An unindexed plain field named `city`. -/
def cityField : DjangoField :=
  { name := "city", null := false, ftype := DjangoFieldType.otherField,
    choices := Option.none, db_index := false }

/-- A model declaring the conditional filterability `city: [country]`. -/
def cityCountryModel : ApiModel :=
  { fields := [countryField, cityField], unique_together := [],
    api_filter_if := [("city", ["country"])],
    haystack_index := [], haystack_index_extra := [] }

/-- A record with a plain field, a `ForeignKey` and a reverse relation, used
to exercise the serializer. -/
def exampleRecord : List (String × PgField) :=
  [("title", PgField.plain Option.none (Py.pystr "a title")),
   ("author", PgField.foreignKey (Py.pyint 42)
     (Py.pyobj [("name", PgField.plain Option.none (Py.pystr "someone"))])),
   ("comments", PgField.relatedObject [Py.pyobj []])]

end SimpleGetApi

namespace SimpleGetApi

/-! Theorems. -/

/-- Reduces the validation-and-pagination tail on the direct backend when no
filters or sort were collected. -/
theorem search_tail_bounds (m : ApiModel) (params : List (String × List String))
    (off lim : Int)
    (ho : pyInt (qd_get params "offset" "0") = some off)
    (hl : pyInt (qd_get params "limit" "100") = some lim) :
    search_tail m QSType.querySet params SearchState.initial =
      (if lim > 6000 then
        SearchResult.badRequest "Limit > 6000 is not supported. Consider using our bulk data instead."
      else if off > 10000 then
        SearchResult.badRequest "Offset > 10000 is not supported for this data type. Try a __gt filter instead."
      else SearchResult.ok [] off lim) := by
  have h0 : search_tail m QSType.querySet params SearchState.initial
      = (match pyInt (qd_get params "offset" "0"), pyInt (qd_get params "limit" "100") with
         | some o, some l =>
           if l > 6000 then
             SearchResult.badRequest "Limit > 6000 is not supported. Consider using our bulk data instead."
           else if QSType.querySet = QSType.querySet ∧ o > 10000 then
             SearchResult.badRequest "Offset > 10000 is not supported for this data type. Try a __gt filter instead."
           else SearchResult.ok [] o l
         | _, _ => SearchResult.badRequest "Invalid offset or limit.") := rfl
  rw [h0, ho, hl]
  simp

/-- C1, counterexample: the claim says `offset=10000` exactly yields
BadRequest, but views.py line 265 tests `offset > 10000`, so a request with
`offset=10000` and `limit=6000` on the direct backend is accepted and
sliced at `[10000, 16000)`. -/
theorem c1_counterexample_offset_10000_accepted :
    do_api_search emptyModel QSType.querySet [("offset", ["10000"]), ("limit", ["6000"])]
      = SearchResult.ok [] 10000 6000 := rfl

/-- C1 (amended): on the direct (QuerySet) backend, for a request carrying
only `offset` and `limit`, translate rejects with BadRequest exactly when the
limit exceeds 6000 or the offset exceeds 10000 (both boundaries exclusive:
limit=6001 is rejected and limit=6000 accepted; offset=10001 is rejected and
offset=10000 accepted); on rejection the result carries no slice, the slice
`[offset, offset+limit)` being taken only on acceptance. -/
theorem c1_pagination_boundary (m : ApiModel) (ostr lstr : String) (off lim : Int)
    (ho : pyInt ostr = some off) (hl : pyInt lstr = some lim) :
    (lim > 6000 →
      do_api_search m QSType.querySet [("offset", [ostr]), ("limit", [lstr])]
        = SearchResult.badRequest "Limit > 6000 is not supported. Consider using our bulk data instead.") ∧
    (lim ≤ 6000 → off > 10000 →
      do_api_search m QSType.querySet [("offset", [ostr]), ("limit", [lstr])]
        = SearchResult.badRequest "Offset > 10000 is not supported for this data type. Try a __gt filter instead.") ∧
    (lim ≤ 6000 → off ≤ 10000 →
      do_api_search m QSType.querySet [("offset", [ostr]), ("limit", [lstr])]
        = SearchResult.ok [] off lim) := by
  have h0 : do_api_search m QSType.querySet [("offset", [ostr]), ("limit", [lstr])]
      = search_tail m QSType.querySet [("offset", [ostr]), ("limit", [lstr])] SearchState.initial := rfl
  have hq1 : qd_get [("offset", [ostr]), ("limit", [lstr])] "offset" "0" = ostr := rfl
  have hq2 : qd_get [("offset", [ostr]), ("limit", [lstr])] "limit" "100" = lstr := rfl
  have h1 := search_tail_bounds m [("offset", [ostr]), ("limit", [lstr])] off lim
    (by rw [hq1, ho]) (by rw [hq2, hl])
  rw [h0, h1]
  refine ⟨fun h6 => by rw [if_pos h6], fun h6 h10 => ?_, fun h6 h10 => ?_⟩
  · rw [if_neg (by omega), if_pos h10]
  · rw [if_neg (by omega), if_neg (by omega)]

/-- Witness for C1: limit=100 parses, offset=10001 parses and is rejected,
while offset=9999 is accepted. -/
theorem c1_pagination_boundary_witness :
    pyInt "10001" = some 10001 ∧ pyInt "100" = some 100 ∧
    (do_api_search emptyModel QSType.querySet [("offset", ["10001"]), ("limit", ["100"])]
      = SearchResult.badRequest "Offset > 10000 is not supported for this data type. Try a __gt filter instead.") ∧
    (do_api_search emptyModel QSType.querySet [("offset", ["9999"]), ("limit", ["100"])]
      = SearchResult.ok [] 9999 100) :=
  ⟨rfl, rfl,
    (c1_pagination_boundary emptyModel "10001" "100" 10001 100 rfl rfl).2.1
      (by omega) (by omega),
    (c1_pagination_boundary emptyModel "9999" "100" 9999 100 rfl rfl).2.2
      (by omega) (by omega)⟩

/-- Normalization of a value list preserves its length. -/
theorem normalize_vals_length (model : ApiModel) (mf : Option DjangoField) :
    ∀ (vs : List String) (ns : List Py),
      normalize_vals model mf vs = Except.ok ns → ns.length = vs.length := by
  intro vs
  induction vs with
  | nil =>
    intro ns h
    simp only [normalize_vals] at h
    cases h
    rfl
  | cons v rest ih =>
    intro ns h
    simp only [normalize_vals] at h
    cases h1 : normalize_field_value model mf (Py.pystr v) with
    | error e => rw [h1] at h; cases h
    | ok nv =>
      rw [h1] at h
      cases h2 : normalize_vals model mf rest with
      | error e => rw [h2] at h; cases h
      | ok ns2 =>
        rw [h2] at h
        cases h
        simp [ih ns2 h2]

/-- C2: a query key that occurs more than once (Django hands the loop its
values as a list of length over one) is translated into a single predicate
with the forced operator `in`, collecting the values of all occurrences in
order — regardless of any explicit operator suffix on the key, which is left
inside the field name rather than honoured (views.py lines 173-177). -/
theorem c2_duplicate_key_forces_in (model : ApiModel) (qst : QSType)
    (st : SearchState) (arg : String) (vals : List String) (nvals : List Py)
    (hres : arg ∉ reservedArgs) (hsort : arg ≠ "sort") (hob : arg ≠ "order_by")
    (hq : ¬(arg = "q" ∧ qst = QSType.searchQuerySet))
    (hlen : vals.length > 1)
    (hnorm : normalize_vals model (model.fields.find? (fun f => f.name = arg)) vals
      = Except.ok nvals) :
    process_query_arg model qst st arg vals =
      Except.ok { st with
        ops := st.ops ++ [QsOp.filterMulti (arg ++ "__in") nvals],
        qs_filters := dictInsert arg ("in", model.fields.find? (fun f => f.name = arg))
          st.qs_filters } := by
  have hlen1 : vals.length ≠ 1 := by omega
  have hlen0 : nvals.length ≠ 0 := by
    have := normalize_vals_length model (model.fields.find? (fun f => f.name = arg)) vals nvals hnorm
    omega
  unfold process_query_arg
  rw [if_neg hres, if_neg (by simp [hsort, hob]), if_neg hq, if_pos hlen]
  simp only [hnorm, hlen1, and_false, if_false, ite_false]
  simp [hlen0]
  rw [String.append_assoc]
  congr 1

/-- Witness for C2: the query `status=active&status=pending` yields the
predicate `status in [active, pending]`, not `status == pending`. -/
theorem c2_duplicate_key_forces_in_witness :
    ("status" ∉ reservedArgs) ∧ (["active", "pending"].length > 1) ∧
    process_query_arg emptyModel QSType.querySet SearchState.initial
        "status" ["active", "pending"]
      = Except.ok { ops := [QsOp.filterMulti "status__in" [Py.pystr "active", Py.pystr "pending"]],
                    qs_sort := Option.none,
                    qs_filters := [("status", ("in", Option.none))] } :=
  ⟨by decide, by decide,
    c2_duplicate_key_forces_in emptyModel QSType.querySet SearchState.initial
      "status" ["active", "pending"] [Py.pystr "active", Py.pystr "pending"]
      (by decide) (by decide) (by decide) (by decide) (by decide) (by rfl)⟩

/-- Splitting on the pipe character always yields at least one group. -/
theorem splitPipeChars_ne_nil (l : List Char) : splitPipeChars l ≠ [] := by
  induction l with
  | nil => simp [splitPipeChars]
  | cons c rest ih =>
    unfold splitPipeChars
    by_cases hc : c = '|'
    · simp [hc]
    · rw [if_neg hc]
      cases h : splitPipeChars rest with
      | nil => simp
      | cons g gs => simp

/-- Python `split` on strings always yields at least one value. -/
theorem pySplitPipe_ne_nil (s : String) : (pySplitPipe s).length ≥ 1 := by
  unfold pySplitPipe
  have h := splitPipeChars_ne_nil s.toList
  cases hc : splitPipeChars s.toList with
  | nil => exact absurd hc h
  | cons g gs => simp

/-- Normalization against the indexed date field always produces a datetime
value: `null` is refused (the field is non-nullable), the field is neither
boolean nor enumerated, and the date branch returns a parsed datetime or
raises. -/
theorem normalize_date_field (s : String) (u : Py)
    (h : normalize_field_value dateModel (some createdAtField) (Py.pystr s) = Except.ok u) :
    ∃ d, u = Py.pydate d := by
  unfold normalize_field_value at h
  simp only [] at h
  by_cases hnull : pyLower s = "null"
  · rw [if_pos hnull] at h
    simp +decide at h
  · rw [if_neg hnull] at h
    rw [show isBoolField dateModel (some createdAtField) = false from rfl] at h
    rw [show fieldChoices (some createdAtField) = [] from rfl] at h
    rw [show isDtField dateModel (some createdAtField) = true from rfl] at h
    simp +decide at h
    cases hd : dateutil_parse s with
    | none => rw [hd] at h; cases h
    | some d =>
      rw [hd] at h
      cases h
      exact ⟨d, rfl⟩

/-- Every value produced by normalizing a list against the date field is a
datetime. -/
theorem normalize_vals_dates :
    ∀ (vs : List String) (ns : List Py),
      normalize_vals dateModel (some createdAtField) vs = Except.ok ns →
      ∀ v ∈ ns, ∃ d, v = Py.pydate d := by
  intro vs
  induction vs with
  | nil =>
    intro ns h v hv
    simp only [normalize_vals] at h
    cases h
    cases hv
  | cons s rest ih =>
    intro ns h v hv
    simp only [normalize_vals] at h
    cases h1 : normalize_field_value dateModel (some createdAtField) (Py.pystr s) with
    | error e => rw [h1] at h; cases h
    | ok nv =>
      rw [h1] at h
      cases h2 : normalize_vals dateModel (some createdAtField) rest with
      | error e => rw [h2] at h; cases h
      | ok ns2 =>
        rw [h2] at h
        cases h
        cases hv with
        | head => exact normalize_date_field s v h1
        | tail _ hv2 => exact ih ns2 h2 v hv2

/-- C3: a single-occurrence `range` (or `in`) filter value is split on `|`
into multiple values; the split always yields at least one value (so `in`
always has its required one); and for the date field `createdAt`, translate
produces the predicate `createdAt__range` over exactly the (all-datetime)
normalized values when there are exactly 2 of them, and rejects with the
range BadRequest otherwise. -/
theorem c3_range_requires_two_values (raw : String) (nvals : List Py)
    (hn : normalize_vals dateModel (some createdAtField) (pySplitPipe raw) = Except.ok nvals) :
    (∀ s : String, (pySplitPipe s).length ≥ 1) ∧
    (∀ v ∈ nvals, ∃ d, v = Py.pydate d) ∧
    (nvals.length = 2 →
      do_api_search dateModel QSType.querySet [("createdAt__range", [raw])]
        = SearchResult.ok [QsOp.filterMulti "createdAt__range" nvals] 0 100) ∧
    (nvals.length ≠ 2 →
      do_api_search dateModel QSType.querySet [("createdAt__range", [raw])]
        = SearchResult.badRequest "The range operator requires the range to be specified as two values separated by a pipe character (e.g. 100|200).") := by
  have hfind : dateModel.fields.find? (fun f => f.name = "createdAt") = some createdAtField := rfl
  refine ⟨pySplitPipe_ne_nil, normalize_vals_dates (pySplitPipe raw) nvals hn, fun h2 => ?_, fun h2 => ?_⟩
  · unfold do_api_search process_all_args process_query_arg
    rw [show split_filter_arg "createdAt__range" = ("createdAt", "range") from rfl]
    simp +decide
    rw [hfind, hn]
    simp [h2]
    rfl
  · unfold do_api_search process_all_args process_query_arg
    rw [show split_filter_arg "createdAt__range" = ("createdAt", "range") from rfl]
    simp +decide
    rw [hfind, hn]
    simp [h2]

/-- Witness for C3: `createdAt__range=2020-01-01|2020-06-01` yields a
predicate with exactly the two parsed dates, and
`createdAt__range=2020-01-01` yields the range BadRequest. -/
theorem c3_range_requires_two_values_witness :
    (normalize_vals dateModel (some createdAtField) (pySplitPipe "2020-01-01|2020-06-01")
      = Except.ok [Py.pydate ⟨2020, 1, 1, 0, 0, 0⟩, Py.pydate ⟨2020, 6, 1, 0, 0, 0⟩]) ∧
    (do_api_search dateModel QSType.querySet [("createdAt__range", ["2020-01-01|2020-06-01"])]
      = SearchResult.ok
          [QsOp.filterMulti "createdAt__range"
            [Py.pydate ⟨2020, 1, 1, 0, 0, 0⟩, Py.pydate ⟨2020, 6, 1, 0, 0, 0⟩]] 0 100) ∧
    (do_api_search dateModel QSType.querySet [("createdAt__range", ["2020-01-01"])]
      = SearchResult.badRequest "The range operator requires the range to be specified as two values separated by a pipe character (e.g. 100|200).") :=
  ⟨by rfl,
    (c3_range_requires_two_values "2020-01-01|2020-06-01"
      [Py.pydate ⟨2020, 1, 1, 0, 0, 0⟩, Py.pydate ⟨2020, 6, 1, 0, 0, 0⟩] (by rfl)).2.2.1 rfl,
    (c3_range_requires_two_values "2020-01-01"
      [Py.pydate ⟨2020, 1, 1, 0, 0, 0⟩] (by rfl)).2.2.2 (by decide)⟩

/-- The rsplit helper returns nothing exactly when the key contains no
`__`. -/
theorem rsplit2Chars_none_iff (l : List Char) :
    rsplit2Chars l = Option.none ↔ hasDunder l = false := by
  induction l with
  | nil => simp [rsplit2Chars, hasDunder]
  | cons c1 tail ih =>
    cases tail with
    | nil => simp +decide [rsplit2Chars, hasDunder]
    | cons c2 rest =>
      unfold rsplit2Chars
      cases hr : rsplit2Chars (c2 :: rest) with
      | some p =>
        have htail : hasDunder (c2 :: rest) = true := by
          by_contra hh
          simp only [Bool.not_eq_true] at hh
          rw [ih.mpr hh] at hr
          cases hr
        constructor
        · intro hh
          simp [Option.elim] at hh
        · intro hh
          unfold hasDunder at hh
          rw [htail] at hh
          simp at hh
      | none =>
        have htail : hasDunder (c2 :: rest) = false := ih.mp hr
        simp only [Option.elim]
        unfold hasDunder
        simp only [List.headD, htail, Bool.or_false]
        by_cases hb : (c1 = '_' && c2 = '_') = true
        · simp [hb]
        · simp only [Bool.not_eq_true] at hb
          simp [hb]

/-- The rsplit helper splits the key around an occurrence of `__`. -/
theorem rsplit2Chars_join :
    ∀ (l a b : List Char), rsplit2Chars l = some (a, b) → l = a ++ '_' :: '_' :: b := by
  intro l
  induction l with
  | nil => intro a b h; cases h
  | cons c1 tail ih =>
    intro a b h
    cases tail with
    | nil => simp [rsplit2Chars] at h
    | cons c2 rest =>
      unfold rsplit2Chars at h
      cases hr : rsplit2Chars (c2 :: rest) with
      | some p =>
        rw [hr] at h
        simp only [Option.elim, Option.some.injEq, Prod.mk.injEq] at h
        rcases h with ⟨ha, hb⟩
        subst ha
        subst hb
        have hj := ih p.1 p.2 (by rw [hr])
        simp [hj]
      | none =>
        rw [hr] at h
        simp only [Option.elim] at h
        by_cases hc : (c1 = '_' && c2 = '_') = true
        · rw [if_pos hc] at h
          simp only [Option.some.injEq, Prod.mk.injEq] at h
          rcases h with ⟨ha, hb⟩
          subst ha
          subst hb
          simp only [Bool.and_eq_true, decide_eq_true_eq] at hc
          rcases hc with ⟨h1, h2⟩
          subst h1
          subst h2
          simp
        · rw [if_neg hc] at h
          cases h

/-- The part split off after the rightmost `__` itself contains no `__`. -/
theorem rsplit2Chars_last :
    ∀ (l a b : List Char), rsplit2Chars l = some (a, b) → hasDunder b = false := by
  intro l
  induction l with
  | nil => intro a b h; cases h
  | cons c1 tail ih =>
    intro a b h
    cases tail with
    | nil => simp [rsplit2Chars] at h
    | cons c2 rest =>
      unfold rsplit2Chars at h
      cases hr : rsplit2Chars (c2 :: rest) with
      | some p =>
        rw [hr] at h
        simp only [Option.elim, Option.some.injEq, Prod.mk.injEq] at h
        rcases h with ⟨_, hb⟩
        subst hb
        exact ih p.1 p.2 (by rw [hr])
      | none =>
        rw [hr] at h
        simp only [Option.elim] at h
        have htail : hasDunder (c2 :: rest) = false := (rsplit2Chars_none_iff (c2 :: rest)).mp hr
        by_cases hc : (c1 = '_' && c2 = '_') = true
        · rw [if_pos hc] at h
          simp only [Option.some.injEq, Prod.mk.injEq] at h
          rcases h with ⟨_, hb⟩
          subst hb
          unfold hasDunder at htail
          simp only [Bool.or_eq_false_iff] at htail
          exact htail.2
        · rw [if_neg hc] at h
          cases h

/-- Appending two string builders appends their characters. -/
theorem str_mk_append (a b : List Char) : String.mk a ++ String.mk b = String.mk (a ++ b) := rfl

/-- Rebuilding a string from its characters is the identity. -/
theorem str_mk_toList (s : String) : String.mk s.toList = s := rfl

/-- C4: a single-occurrence filter key is split on its last `__` into
(candidate field, candidate operator): when the rsplit succeeds, the two
parts rejoin to the original key and the candidate operator contains no
further `__` (it is the part after the last occurrence); a candidate
operator among the known tokens is kept, any other suffix is folded back so
that the whole key becomes the field name with implicit operator `exact`;
and a key containing no `__` gets operator `exact`. -/
theorem c4_filter_key_split :
    (∀ (arg a b : String), pyRsplit2 arg = some (a, b) →
      (a ++ "__" ++ b = arg ∧ hasDunder b.toList = false) ∧
      (b ∈ knownOperators → split_filter_arg arg = (a, b)) ∧
      (b ∉ knownOperators → split_filter_arg arg = (arg, "exact"))) ∧
    (∀ arg : String, hasDunder arg.toList = false →
      split_filter_arg arg = (arg, "exact")) := by
  have hjoin : ∀ (arg a b : String), pyRsplit2 arg = some (a, b) →
      a ++ "__" ++ b = arg := by
    intro arg a b h
    unfold pyRsplit2 at h
    cases hr : rsplit2Chars arg.toList with
    | none => rw [hr] at h; cases h
    | some p =>
      rw [hr] at h
      simp only [Option.map, Option.some.injEq, Prod.mk.injEq] at h
      rcases h with ⟨ha, hb⟩
      subst ha
      subst hb
      have hj := rsplit2Chars_join arg.toList p.1 p.2 (by rw [hr])
      have hu : ("__" : String) = String.mk ['_', '_'] := by decide
      calc String.mk p.1 ++ "__" ++ String.mk p.2
          = String.mk (p.1 ++ '_' :: '_' :: p.2) := by
            rw [hu, str_mk_append, str_mk_append]
            simp
        _ = String.mk arg.toList := by rw [← hj]
        _ = arg := rfl
  refine ⟨fun arg a b h => ?_, fun arg h => ?_⟩
  · refine ⟨⟨hjoin arg a b h, ?_⟩, fun hb => ?_, fun hb => ?_⟩
    · unfold pyRsplit2 at h
      cases hr : rsplit2Chars arg.toList with
      | none => rw [hr] at h; cases h
      | some p =>
        rw [hr] at h
        simp only [Option.map, Option.some.injEq, Prod.mk.injEq] at h
        rcases h with ⟨_, hb2⟩
        subst hb2
        exact rsplit2Chars_last arg.toList p.1 p.2 (by rw [hr])
    · unfold split_filter_arg
      rw [h]
      show (if b ∈ knownOperators then (a, b) else (a ++ "__" ++ b, "exact")) = (a, b)
      rw [if_pos hb]
    · unfold split_filter_arg
      rw [h]
      show (if b ∈ knownOperators then (a, b) else (a ++ "__" ++ b, "exact")) = (arg, "exact")
      rw [if_neg hb, hjoin arg a b h]
  · have hnone : pyRsplit2 arg = Option.none := by
      unfold pyRsplit2
      rw [(rsplit2Chars_none_iff arg.toList).mpr h]
      rfl
    unfold split_filter_arg
    rw [hnone]

/-- Witness for C4: `created__gte` splits into field `created` and operator
`gte`; `a__b` has suffix `b`, not an operator, so it folds back to field
`a__b` with `exact`; and `plain` (no `__`) gets `exact`. -/
theorem c4_filter_key_split_witness :
    (pyRsplit2 "created__gte" = some ("created", "gte")) ∧
    split_filter_arg "created__gte" = ("created", "gte") ∧
    (pyRsplit2 "a__b" = some ("a", "b")) ∧
    split_filter_arg "a__b" = ("a__b", "exact") ∧
    split_filter_arg "plain" = ("plain", "exact") :=
  ⟨by rfl,
    (c4_filter_key_split.1 "created__gte" "created" "gte" (by rfl)).2.1 (by decide),
    by rfl,
    (c4_filter_key_split.1 "a__b" "a" "b" (by rfl)).2.2 (by decide),
    c4_filter_key_split.2 "plain" (by decide)⟩

/-- A key is in the dict after an insert iff it is the inserted key or was
already there. -/
theorem mem_dictInsert_keys {α : Type} (j k : String) (v : α) (d : List (String × α)) :
    j ∈ (dictInsert k v d).map (fun kv => kv.1) ↔ j = k ∨ j ∈ d.map (fun kv => kv.1) := by
  induction d with
  | nil => simp [dictInsert]
  | cons kv rest ih =>
    unfold dictInsert
    by_cases hk : kv.1 = k
    · rw [if_pos hk]
      simp [hk]
    · rw [if_neg hk]
      simp only [List.map_cons, List.mem_cons, ih]
      tauto

/-- Keys after folding a list of inserts: the old keys plus the inserted
ones. -/
theorem foldl_dictInsert_keys (xs : List (String × List String)) :
    ∀ (d : List (String × List String)) (j : String),
      j ∈ (xs.foldl (fun d kv => dictInsert kv.1 kv.2 d) d).map (fun kv => kv.1) ↔
        j ∈ d.map (fun kv => kv.1) ∨ ∃ e ∈ xs, e.1 = j := by
  induction xs with
  | nil => simp
  | cons x rest ih =>
    intro d j
    simp only [List.foldl_cons, ih, mem_dictInsert_keys, List.mem_cons]
    constructor
    · rintro ((h | h) | ⟨e, he, hej⟩)
      · exact Or.inr ⟨x, Or.inl rfl, h.symm⟩
      · exact Or.inl h
      · exact Or.inr ⟨e, Or.inr he, hej⟩
    · rintro (h | ⟨e, (rfl | he), hej⟩)
      · exact Or.inl (Or.inr h)
      · exact Or.inl (Or.inl hej.symm)
      · exact Or.inr ⟨e, he, hej⟩

/-- Keys contributed by one `unique_together` tuple: exactly its members. -/
theorem add_unique_together_keys (ut : List String) :
    ∀ (d : List (String × List String)) (j : String),
      j ∈ (add_unique_together d ut).map (fun kv => kv.1) ↔
        j ∈ d.map (fun kv => kv.1) ∨ j ∈ ut := by
  unfold add_unique_together
  have hgen : ∀ (is : List Nat) (d : List (String × List String)) (j : String),
      j ∈ (is.foldl (fun d i => dictInsert (ut.getD i "") (ut.take i) d) d).map (fun kv => kv.1) ↔
        j ∈ d.map (fun kv => kv.1) ∨ ∃ i ∈ is, ut.getD i "" = j := by
    intro is
    induction is with
    | nil => simp
    | cons i rest ih =>
      intro d j
      simp only [List.foldl_cons, ih, mem_dictInsert_keys, List.mem_cons]
      constructor
      · rintro ((h | h) | ⟨i2, hi2, hj⟩)
        · exact Or.inr ⟨i, Or.inl rfl, h.symm⟩
        · exact Or.inl h
        · exact Or.inr ⟨i2, Or.inr hi2, hj⟩
      · rintro (h | ⟨i2, (rfl | hi2), hj⟩)
        · exact Or.inl (Or.inr h)
        · exact Or.inl (Or.inl hj.symm)
        · exact Or.inr ⟨i2, hi2, hj⟩
  intro d j
  rw [hgen]
  constructor
  · rintro (h | ⟨i, hi, hj⟩)
    · exact Or.inl h
    · right
      rw [List.mem_range] at hi
      rw [List.getD_eq_getElem?_getD, List.getElem?_eq_getElem hi] at hj
      simp only [Option.getD_some] at hj
      rw [← hj]
      exact List.getElem_mem hi
  · rintro (h | h)
    · exact Or.inl h
    · right
      rcases List.mem_iff_getElem.mp h with ⟨i, hi, hj⟩
      refine ⟨i, List.mem_range.mpr hi, ?_⟩
      rw [List.getD_eq_getElem?_getD, List.getElem?_eq_getElem hi]
      simp [hj]

/-- Keys contributed by all `unique_together` tuples. -/
theorem unique_together_fold_keys (uts : List (List String)) :
    ∀ (d : List (String × List String)) (j : String),
      j ∈ (uts.foldl add_unique_together d).map (fun kv => kv.1) ↔
        j ∈ d.map (fun kv => kv.1) ∨ ∃ ut ∈ uts, j ∈ ut := by
  induction uts with
  | nil => simp
  | cons ut rest ih =>
    intro d j
    simp only [List.foldl_cons, ih, add_unique_together_keys, List.mem_cons]
    constructor
    · rintro ((h | h) | ⟨u, hu, hj⟩)
      · exact Or.inl h
      · exact Or.inr ⟨ut, Or.inl rfl, h⟩
      · exact Or.inr ⟨u, Or.inr hu, hj⟩
    · rintro (h | ⟨u, (rfl | hu), hj⟩)
      · exact Or.inl (Or.inl h)
      · exact Or.inl (Or.inr hj)
      · exact Or.inr ⟨u, hu, hj⟩

/-- The keys of the computed dependency dict on the direct backend: fields
occurring in some `unique_together` tuple or named by `api_filter_if`. -/
theorem indexed_if_keys (model : ApiModel) (j : String) :
    j ∈ (get_model_filterable_fields model QSType.querySet).2.map (fun kv => kv.1) ↔
      (∃ ut ∈ model.unique_together, j ∈ ut) ∨ ∃ e ∈ model.api_filter_if, e.1 = j := by
  unfold get_model_filterable_fields
  simp only []
  rw [foldl_dictInsert_keys, unique_together_fold_keys]
  simp

/-- Membership in the computed indexed-field set on the direct backend. -/
theorem mem_indexed_fields_iff (model : ApiModel) (j : String) :
    j ∈ (get_model_filterable_fields model QSType.querySet).1 ↔
      ∃ fld ∈ model.fields, fld.name = j ∧ (fld.name = "id" ∨ fld.db_index = true) := by
  unfold get_model_filterable_fields
  simp only [List.mem_map, List.mem_filter]
  constructor
  · rintro ⟨fld, ⟨hmem, hcond⟩, hname⟩
    subst hname
    simp only [Bool.or_eq_true, decide_eq_true_eq] at hcond
    exact ⟨fld, hmem, rfl, hcond⟩
  · rintro ⟨fld, hmem, hname, hcond⟩
    subst hname
    exact ⟨fld, ⟨hmem, by simp [hcond]⟩, rfl⟩

/-- The per-field check succeeds iff the field is indexed or has a
dependency entry, and every dependency is among the filtered keys. -/
theorem check_one_filter_none_iff (ifields : List String)
    (iif : List (String × List String)) (keys : List String) (f : String) :
    check_one_filter ifields iif keys f = Option.none ↔
      ((f ∈ ifields ∨ f ∈ iif.map (fun kv => kv.1)) ∧
        ∀ d ∈ (dictGet? f iif).getD [], d ∈ keys) := by
  unfold check_one_filter
  split
  · rename_i h1
    constructor
    · intro hh
      exact Option.noConfusion hh
    · rintro ⟨hor, _⟩
      rcases hor with h | h
      · exact absurd h h1.1
      · exact absurd h h1.2
  · rename_i h1
    push_neg at h1
    split
    · rename_i h2
      simp only [List.all_eq_true, decide_eq_true_eq] at h2
      constructor
      · intro _
        refine ⟨?_, h2⟩
        by_cases hf : f ∈ ifields
        · exact Or.inl hf
        · exact Or.inr (h1 hf)
      · intro _
        rfl
    · rename_i h2
      simp only [List.all_eq_true, decide_eq_true_eq] at h2
      push_neg at h2
      constructor
      · intro hh
        exact Option.noConfusion hh
      · rintro ⟨_, hdeps⟩
        rcases h2 with ⟨d, hd, hnk⟩
        exact absurd (hdeps d hd) hnk

/-- C6, counterexample: the claim accepts any explicitly indexed field, but
filtering on `x` alone is rejected even though `x` has `db_index=True`,
because `x` also sits second in the composite-uniqueness tuple `(a, x)` and
its dependency `a` is not among the filters. -/
theorem c6_counterexample_indexed_field_rejected :
    (fieldX.db_index = true ∧ fieldX ∈ uniqueTogetherModel.fields ∧ fieldX.name = "x") ∧
    do_api_search uniqueTogetherModel QSType.querySet [("x", ["5"])]
      = SearchResult.badRequest "Cannot filter on field x without also filtering on a" :=
  ⟨⟨rfl, by decide, rfl⟩, by rfl⟩

/-- C6 (amended): on the direct-indexed backend a predicate set passes the
filterability check iff every filtered field (1) is the primary identifier
`id`, explicitly indexed, a member of some declared composite-uniqueness
tuple, or listed in the per-type conditional-filterability map, and (2) when
the field has an entry in the computed dependency dict (tuple positions map
to the fields to their left, overridden by the conditional-filterability
map), every dependency field is also among the filtered fields — the
dependency requirement applies even to explicitly indexed fields; on failure
the BadRequest names the offending field. -/
theorem c6_field_filterability (model : ApiModel)
    (qs_filters : List (String × (String × Option DjangoField))) :
    check_filters (get_model_filterable_fields model QSType.querySet).1
        (get_model_filterable_fields model QSType.querySet).2 qs_filters = Option.none ↔
      ∀ kv ∈ qs_filters,
        ((∃ fld ∈ model.fields, fld.name = kv.1 ∧ (fld.name = "id" ∨ fld.db_index = true)) ∨
          (∃ ut ∈ model.unique_together, kv.1 ∈ ut) ∨
          (∃ e ∈ model.api_filter_if, e.1 = kv.1)) ∧
        ∀ d ∈ (dictGet? kv.1 (get_model_filterable_fields model QSType.querySet).2).getD [],
          d ∈ qs_filters.map (fun f => f.1) := by
  unfold check_filters
  rw [List.findSome?_eq_none_iff]
  constructor
  · intro h kv hkv
    have h2 := (check_one_filter_none_iff _ _ _ _).mp (h kv hkv)
    refine ⟨?_, h2.2⟩
    rcases h2.1 with hidx | hdep
    · exact Or.inl ((mem_indexed_fields_iff model kv.1).mp hidx)
    · rcases (indexed_if_keys model kv.1).mp hdep with h3 | h3
      · exact Or.inr (Or.inl h3)
      · exact Or.inr (Or.inr h3)
  · intro h kv hkv
    have h2 := h kv hkv
    refine (check_one_filter_none_iff _ _ _ _).mpr ⟨?_, h2.2⟩
    rcases h2.1 with h3 | h3 | h3
    · exact Or.inl ((mem_indexed_fields_iff model kv.1).mpr h3)
    · exact Or.inr ((indexed_if_keys model kv.1).mpr (Or.inl h3))
    · exact Or.inr ((indexed_if_keys model kv.1).mpr (Or.inr h3))

/-- Witness for C6: with `api_filter_if = {city: [country]}`, filtering on
`country` and `city` together passes the check, and filtering on `city`
alone fails it. -/
theorem c6_field_filterability_witness :
    (check_filters (get_model_filterable_fields cityCountryModel QSType.querySet).1
        (get_model_filterable_fields cityCountryModel QSType.querySet).2
        [("country", ("exact", some countryField)), ("city", ("exact", some cityField))]
      = Option.none) ∧
    ¬ (check_filters (get_model_filterable_fields cityCountryModel QSType.querySet).1
        (get_model_filterable_fields cityCountryModel QSType.querySet).2
        [("city", ("exact", some cityField))]
      = Option.none) :=
  ⟨(c6_field_filterability cityCountryModel _).mpr (by decide),
    fun h => by
      have h2 := (c6_field_filterability cityCountryModel _).mp h
        ("city", ("exact", some cityField)) (by decide)
      revert h2
      decide⟩

/-- C8, counterexample: normalization is not idempotent on an accepted
boolean filter value: `"true"` on a boolean field normalizes to `True`, but
applying normalization to `True` does not return it unchanged — the
`v.lower()` call on line 298 of views.py raises `AttributeError` on a
non-string. -/
theorem c8_counterexample_normalize_not_idempotent :
    normalize_field_value emptyModel (some boolField) (Py.pystr "true")
      = Except.ok (Py.pybool true) ∧
    normalize_field_value emptyModel (some boolField) (Py.pybool true)
      = Except.error NormError.attributeError :=
  ⟨by rfl, by rfl⟩

/-- C8 (amended): normalization is idempotent exactly on pass-through
values: when a raw string normalizes to a string, that string is the input
itself and normalizing it again returns it unchanged; when it normalizes to
a typed value (null, boolean, enum integer, datetime), re-applying
normalization fails with `AttributeError` at the `v.lower()` call instead of
returning the value unchanged. -/
theorem c8_normalize_idempotent_only_on_strings (model : ApiModel)
    (mf : Option DjangoField) (v : String) (u : Py)
    (h : normalize_field_value model mf (Py.pystr v) = Except.ok u) :
    ((∃ s, u = Py.pystr s) →
      u = Py.pystr v ∧ normalize_field_value model mf u = Except.ok u) ∧
    ((∀ s, u ≠ Py.pystr s) →
      normalize_field_value model mf u = Except.error NormError.attributeError) := by
  constructor
  · rintro ⟨s, rfl⟩
    unfold normalize_field_value at h
    simp only [] at h
    by_cases h1 : pyLower v = "null"
    · rw [if_pos h1] at h
      split at h <;> simp_all
    · rw [if_neg h1] at h
      by_cases h2 : isBoolField model mf = true
      · rw [if_pos h2] at h
        split at h
        · simp_all
        · split at h <;> simp_all
      · rw [if_neg h2] at h
        by_cases h3 : fieldChoices mf ≠ []
        · rw [if_pos h3] at h
          split at h <;> simp_all
        · rw [if_neg h3] at h
          by_cases h4 : isDtField model mf = true
          · rw [if_pos h4] at h
            split at h <;> simp_all
          · rw [if_neg h4] at h
            simp only [Except.ok.injEq, Py.pystr.injEq] at h
            subst h
            refine ⟨rfl, ?_⟩
            unfold normalize_field_value
            simp only []
            rw [if_neg h1, if_neg h2, if_neg h3, if_neg h4]
  · intro hns
    cases u <;> first | rfl | exact absurd rfl (hns _)

/-- Witness for C8: an untyped pass-through value (`hello` on a model-less
filter) normalizes to itself, and normalizing the result again returns it
unchanged. -/
theorem c8_normalize_idempotent_only_on_strings_witness :
    (normalize_field_value emptyModel Option.none (Py.pystr "hello")
      = Except.ok (Py.pystr "hello")) ∧
    (Py.pystr "hello" = Py.pystr "hello" ∧
      normalize_field_value emptyModel Option.none (Py.pystr "hello")
        = Except.ok (Py.pystr "hello")) :=
  ⟨by rfl,
    (c8_normalize_idempotent_only_on_strings emptyModel Option.none "hello"
      (Py.pystr "hello") (by rfl)).1 ⟨"hello", rfl⟩⟩

/-- C10: the null sentinel is matched case-insensitively — any raw string
lowercasing to `null` normalizes to the null value on a nullable field and
raises `InvalidValue` on a non-nullable one — while booleans are matched
case-sensitively: on a boolean field (with a raw string other than the null
sentinel) exactly the lowercase strings `true` and `false` are accepted and
anything else, including `True`, raises `InvalidValue`. -/
theorem c10_null_insensitive_bool_sensitive :
    (∀ (model : ApiModel) (mf : DjangoField) (v : String),
      mf.null = true → pyLower v = "null" →
      normalize_field_value model (some mf) (Py.pystr v) = Except.ok Py.pynone) ∧
    (∀ (model : ApiModel) (mf : DjangoField) (v : String),
      mf.null = false → pyLower v = "null" →
      normalize_field_value model (some mf) (Py.pystr v)
        = Except.error (NormError.valueError "Field cannot be null.")) ∧
    (∀ (model : ApiModel) (mf : DjangoField) (v : String),
      isBoolField model (some mf) = true → pyLower v ≠ "null" →
      (v = "true" →
        normalize_field_value model (some mf) (Py.pystr v) = Except.ok (Py.pybool true)) ∧
      (v = "false" →
        normalize_field_value model (some mf) (Py.pystr v) = Except.ok (Py.pybool false)) ∧
      (v ≠ "true" → v ≠ "false" →
        normalize_field_value model (some mf) (Py.pystr v)
          = Except.error (NormError.valueError "Invalid boolean (must be 'true' or 'false')."))) := by
  refine ⟨fun model mf v hn hl => ?_, fun model mf v hn hl => ?_,
    fun model mf v hb hl => ⟨fun hv => ?_, fun hv => ?_, fun hv1 hv2 => ?_⟩⟩
  · unfold normalize_field_value
    simp [hl, hn]
  · unfold normalize_field_value
    simp [hl, hn]
  · subst hv
    unfold normalize_field_value
    simp [hl, hb]
  · subst hv
    unfold normalize_field_value
    simp +decide [hl, hb]
  · unfold normalize_field_value
    simp [hl, hb, hv1, hv2]

/-- Witness for C10: `NULL` normalizes to null on a nullable boolean field;
`Null` raises on a non-nullable field; `True` raises on a boolean field
while `true` is accepted. -/
theorem c10_null_insensitive_bool_sensitive_witness :
    (normalize_field_value emptyModel (some nullableBoolField) (Py.pystr "NULL")
      = Except.ok Py.pynone) ∧
    (normalize_field_value emptyModel (some boolField) (Py.pystr "Null")
      = Except.error (NormError.valueError "Field cannot be null.")) ∧
    (normalize_field_value emptyModel (some boolField) (Py.pystr "True")
      = Except.error (NormError.valueError "Invalid boolean (must be 'true' or 'false').")) ∧
    (normalize_field_value emptyModel (some boolField) (Py.pystr "true")
      = Except.ok (Py.pybool true)) :=
  ⟨c10_null_insensitive_bool_sensitive.1 emptyModel nullableBoolField "NULL" rfl (by rfl),
    c10_null_insensitive_bool_sensitive.2.1 emptyModel boolField "Null" rfl (by rfl),
    (c10_null_insensitive_bool_sensitive.2.2 emptyModel boolField "True" (by rfl)
      (by decide)).2.2 (by decide) (by decide),
    (c10_null_insensitive_bool_sensitive.2.2 emptyModel boolField "true" (by rfl)
      (by decide)).1 rfl⟩

/-- C7: serialization into the primitive tree never raises on an
unrecognised leaf type — a value of any unmodelled type (`pyother`) is
rendered as its string representation — whereas the XML node builder raises
its hard `ValueError` on every leaf that is not a string, number (Python
booleans are `int` instances and render as numbers), null, sequence, or
map: datetimes, decimals, model instances and unrecognised objects all
error, while the handled leaves and sequences succeed. -/
theorem c7_serializer_fallback_xml_strict :
    (∀ (fuel : Nat) (ro : List String) (rf : Option (List String)) (r : String),
      serialize_object (fuel + 1) (Py.pyother r) ro rf = Except.ok (Py.pystr r)) ∧
    (∀ (fuel : Nat) (d : PyDateTime), make_node fuel (Py.pydate d)
      = Except.error ("Unhandled data type in XML serialization: " ++ pyTypeName (Py.pydate d))) ∧
    (∀ (fuel : Nat) (r : String), make_node fuel (Py.pydecimal r)
      = Except.error ("Unhandled data type in XML serialization: " ++ pyTypeName (Py.pydecimal r))) ∧
    (∀ (fuel : Nat) (fs : List (String × PgField)), make_node fuel (Py.pyobj fs)
      = Except.error ("Unhandled data type in XML serialization: " ++ pyTypeName (Py.pyobj fs))) ∧
    (∀ (fuel : Nat) (r : String), make_node fuel (Py.pyother r)
      = Except.error ("Unhandled data type in XML serialization: " ++ pyTypeName (Py.pyother r))) ∧
    (∀ (fuel : Nat) (s : String), make_node fuel (Py.pystr s) = Except.ok (some s, [])) ∧
    (∀ (fuel : Nat) (n : Int), make_node fuel (Py.pyint n) = Except.ok (some (toString n), [])) ∧
    (∀ (fuel : Nat) (r : String), make_node fuel (Py.pyfloat r) = Except.ok (some r, [])) ∧
    (∀ (fuel : Nat) (b : Bool), make_node fuel (Py.pybool b)
      = Except.ok (some (pyUnicodeNum (Py.pybool b)), [])) ∧
    (∀ (fuel : Nat), make_node fuel Py.pynone = Except.ok (some "null", [])) ∧
    (∀ (fuel : Nat) (s : String), make_node (fuel + 1) (Py.pylist [Py.pystr s])
      = Except.ok (Option.none, [XmlNode.element "item" (some s) []])) :=
  ⟨fun _ _ _ _ => by unfold serialize_object; rfl,
    fun _ _ => by unfold make_node; rfl,
    fun _ _ => by unfold make_node; rfl,
    fun _ _ => by unfold make_node; rfl,
    fun _ _ => by unfold make_node; rfl,
    fun _ _ => by unfold make_node; rfl,
    fun _ _ => by unfold make_node; rfl,
    fun _ _ => by unfold make_node; rfl,
    fun _ _ => by unfold make_node; rfl,
    fun _ => by unfold make_node; rfl,
    fun fuel s => by
      have hstr : make_node fuel (Py.pystr s) = Except.ok (some s, []) := by
        unfold make_node
        rfl
      have hnil : make_node_items fuel ([] : List Py) = Except.ok [] := by
        unfold make_node_items
        rfl
      have hitems : make_node_items fuel [Py.pystr s]
          = Except.ok [XmlNode.element "item" (some s) []] := by
        unfold make_node_items
        rw [hstr, hnil]
      unfold make_node
      simp only []
      rw [hitems]⟩

/-- The head character of an appended string is that of its nonempty left
part. -/
theorem str_append_head (p f : String) (c : Char) (h : p.data.head? = some c) :
    (p ++ f).data.head? = some c := by
  rw [String.data_append]
  cases hd : p.data with
  | nil => rw [hd] at h; cases h
  | cons a l =>
    rw [hd] at h
    simpa using h

/-- A string starting with `c` differs from one that does not. -/
theorem str_append_ne (p f t : String) (c : Char) (hp : p.data.head? = some c)
    (ht : t.data.head? ≠ some c) : p ++ f ≠ t :=
  fun he => ht (he ▸ str_append_head p f c hp)

/-- Any normalized single-occurrence value list is nonempty. -/
theorem vals2_len_pos (vals : List String) (hv : vals ≠ []) (c : Prop) [Decidable c] :
    1 ≤ (if c then pySplitPipe (vals.headD "") else vals).length := by
  split
  · exact pySplitPipe_ne_nil _
  · cases vals with
    | nil => exact absurd rfl hv
    | cons a l => simp

/-- Processing one query argument with a nonempty value list never produces
the in-arity BadRequest. -/
theorem process_query_arg_no_empty_in (model : ApiModel) (qst : QSType)
    (st : SearchState) (arg : String) (vals : List String) (hv : vals ≠ []) :
    process_query_arg model qst st arg vals
      ≠ Except.error (ProcErr.badRequest "The in operator requires an argument.") := by
  intro hcontra
  unfold process_query_arg at hcontra
  simp only [] at hcontra
  set ap := (if vals.length > 1 then (arg, "in") else split_filter_arg arg) with hap
  split at hcontra
  · exact Except.noConfusion hcontra
  · split at hcontra
    · split at hcontra
      · injection hcontra with h
        injection h with h
        exact absurd h (by decide)
      · exact Except.noConfusion hcontra
    · split at hcontra
      · split at hcontra
        · injection hcontra with h
          injection h with h
          exact absurd h (str_append_ne _ _ _ 'I'
            (str_append_head _ _ 'I' (by decide)) (by decide))
        · exact Except.noConfusion hcontra
      · split at hcontra
        · injection hcontra with h
          injection h with h
          exact absurd h (str_append_ne _ _ _ 'I'
            (str_append_head _ _ 'I' (str_append_head _ _ 'I' (by decide))) (by decide))
        · injection hcontra with h
          exact ProcErr.noConfusion h
        · rename_i nvals heq
          split at hcontra
          · split at hcontra
            · injection hcontra with h
              injection h with h
              exact absurd h (str_append_ne _ _ _ 'I'
                (str_append_head _ _ 'I' (by decide)) (by decide))
            · exact Except.noConfusion hcontra
          · split at hcontra
            · injection hcontra with h
              injection h with h
              exact absurd h (by decide)
            · split at hcontra
              · rename_i hcond
                rcases hcond with ⟨-, hzero⟩
                have hlen := normalize_vals_length model _ _ nvals heq
                rw [hzero] at hlen
                revert hlen
                split
                · intro h0
                  have h1 := pySplitPipe_ne_nil (vals.headD "")
                  omega
                · intro h0
                  cases vals with
                  | nil => exact hv rfl
                  | cons a l => simp at h0
              · exact Except.noConfusion hcontra

/-- Any message produced by the per-field filter check starts with `C`. -/
theorem check_one_filter_some_head (ifields : List String)
    (iif : List (String × List String)) (keys : List String) (f m : String)
    (h : check_one_filter ifields iif keys f = some m) : m.data.head? = some 'C' := by
  unfold check_one_filter at h
  split at h
  · injection h with h
    rw [← h]
    exact str_append_head "Cannot filter on field: " f 'C' (by decide)
  · split at h
    · cases h
    · injection h with h
      rw [← h]
      exact str_append_head _ _ 'C'
        (str_append_head _ _ 'C' (str_append_head "Cannot filter on field " f 'C' (by decide)))

/-- Any message produced by the filter-validation loop starts with `C`. -/
theorem check_filters_some_head (ifields : List String)
    (iif : List (String × List String))
    (qfs : List (String × (String × Option DjangoField))) (m : String)
    (h : check_filters ifields iif qfs = some m) : m.data.head? = some 'C' := by
  unfold check_filters at h
  obtain ⟨x, _, hone⟩ := List.exists_of_findSome?_eq_some h
  exact check_one_filter_some_head _ _ _ _ m hone

/-- Any message produced by the sort check starts with `C`. -/
theorem check_sort_some_head (ifields : List String)
    (qsort : Option (String × String)) (m : String)
    (h : check_sort ifields qsort = some m) : m.data.head? = some 'C' := by
  unfold check_sort at h
  split at h
  · split at h
    · injection h with h
      rw [← h]
      exact str_append_head "Cannot sort on field: " _ 'C' (by decide)
    · cases h
  · cases h

/-- Every BadRequest that the validation-and-pagination tail can produce
either starts with `C` or is one of three fixed pagination messages. -/
theorem search_tail_msg_head (model : ApiModel) (qst : QSType)
    (params : List (String × List String)) (st : SearchState) (m : String)
    (h : search_tail model qst params st = SearchResult.badRequest m) :
    m.data.head? = some 'C' ∨
    m = "Limit > 6000 is not supported. Consider using our bulk data instead." ∨
    m = "Offset > 10000 is not supported for this data type. Try a __gt filter instead." ∨
    m = "Invalid offset or limit." := by
  unfold search_tail at h
  simp only [] at h
  split at h
  · rename_i m2 hsort
    injection h with h
    exact Or.inl (h ▸ check_sort_some_head _ _ m2 hsort)
  · split at h
    · rename_i m2 hfil
      injection h with h
      exact Or.inl (h ▸ check_filters_some_head _ _ _ m2 hfil)
    · split at h
      · split at h
        · injection h with h
          exact Or.inr (Or.inl h.symm)
        · split at h
          · injection h with h
            exact Or.inr (Or.inr (Or.inl h.symm))
          · exact SearchResult.noConfusion h
      · injection h with h
        exact Or.inr (Or.inr (Or.inr h.symm))

/-- The whole filter loop never produces the in-arity BadRequest when every
query key carries at least one value. -/
theorem process_all_args_no_empty_in (model : ApiModel) (qst : QSType) :
    ∀ (params : List (String × List String)) (st : SearchState),
      (∀ kv ∈ params, kv.2 ≠ []) →
      process_all_args model qst params st
        ≠ Except.error (ProcErr.badRequest "The in operator requires an argument.") := by
  intro params
  induction params with
  | nil =>
    intro st _ hcontra
    exact Except.noConfusion hcontra
  | cons kv rest ih =>
    obtain ⟨arg, vals⟩ := kv
    intro st h hcontra
    unfold process_all_args at hcontra
    cases hq : process_query_arg model qst st arg vals with
    | error e =>
      rw [hq] at hcontra
      exact process_query_arg_no_empty_in model qst st arg vals
        (h (arg, vals) (by simp)) (hq.trans hcontra)
    | ok st2 =>
      rw [hq] at hcontra
      exact ih st2 (fun kv2 hkv2 => h kv2 (by simp [hkv2])) hcontra

/-- C9: the BadRequest branch for an `in` filter with zero values is
unreachable: a single occurrence is pipe-split, which always yields at least
one (possibly empty-string) value, and a repeated key carries one value per
occurrence, so when every query key has at least one value the whole search
never returns "The in operator requires an argument.". -/
theorem c9_empty_in_unreachable (model : ApiModel) (qst : QSType)
    (params : List (String × List String))
    (h : ∀ kv ∈ params, kv.2 ≠ []) :
    do_api_search model qst params
      ≠ SearchResult.badRequest "The in operator requires an argument." := by
  intro hcontra
  unfold do_api_search at hcontra
  split at hcontra
  · rename_i m heq
    injection hcontra with hm
    subst hm
    exact process_all_args_no_empty_in model qst params SearchState.initial h heq
  · exact SearchResult.noConfusion hcontra
  · rename_i st heq
    rcases search_tail_msg_head model qst params st _ hcontra with hh | hh | hh | hh
    · exact absurd hh (by decide)
    · exact absurd hh (by decide)
    · exact absurd hh (by decide)
    · exact absurd hh (by decide)

/-- Witness for C9: the explicit `in` filter `status__in=` (an empty raw
string) still yields one empty-string value after the pipe split, and the
request is not rejected by the in-arity branch. -/
theorem c9_empty_in_unreachable_witness :
    ((["" ] : List String) ≠ []) ∧
    do_api_search emptyModel QSType.searchQuerySet [("status__in", [""])]
      ≠ SearchResult.badRequest "The in operator requires an argument." :=
  ⟨by decide,
    c9_empty_in_unreachable emptyModel QSType.searchQuerySet [("status__in", [""])]
      (by intro kv hkv; simp at hkv; simp [hkv])⟩

/-- Looking up the just-inserted key returns the inserted value. -/
theorem dictGet?_insert_self {α : Type} (k : String) (v : α) (d : List (String × α)) :
    dictGet? k (dictInsert k v d) = some v := by
  induction d with
  | nil => simp [dictInsert, dictGet?]
  | cons kv rest ih =>
    obtain ⟨k0, v0⟩ := kv
    unfold dictInsert
    by_cases h : k0 = k
    · rw [if_pos h]
      simp [dictGet?]
    · rw [if_neg h]
      simp only [dictGet?, List.find?_cons, h, decide_eq_true_eq, if_false]
      simpa [dictGet?, h] using ih

/-- Inserting under a different key leaves a lookup unchanged. -/
theorem dictGet?_insert_ne {α : Type} (k k2 : String) (v : α) (d : List (String × α))
    (h : k ≠ k2) : dictGet? k (dictInsert k2 v d) = dictGet? k d := by
  induction d with
  | nil => simp [dictInsert, dictGet?, Ne.symm h]
  | cons kv rest ih =>
    obtain ⟨k0, v0⟩ := kv
    unfold dictInsert
    by_cases h0 : k0 = k2
    · rw [if_pos h0]
      subst h0
      simp [dictGet?, List.find?_cons, Ne.symm h]
    · rw [if_neg h0]
      simp only [dictGet?, List.find?_cons] at ih ⊢
      by_cases hk0 : k0 = k
      · simp [hk0]
      · simpa [hk0] using ih

/-- A `ForeignKey` field outside the recursion directives emits exactly the
cached identifier under the field's name. -/
theorem serialize_one_field_fk (fuel : Nat) (fname : String) (idv tgt : Py)
    (ro : List String) (ret : List (String × Py)) (h : fname ∉ ro) :
    serialize_one_field fuel fname (PgField.foreignKey idv tgt) ro Option.none ret
      = Except.ok (dictInsert fname idv ret) := by
  have hc : ro.contains fname = false := by simpa using h
  unfold serialize_one_field
  simp [hc]
  exact fun hmem => absurd hmem h

/-- A reverse-relation field outside the recursion directives is skipped
entirely. -/
theorem serialize_one_field_ro (fuel : Nat) (fname : String) (items : List Py)
    (ro : List String) (ret : List (String × Py)) (h : fname ∉ ro) :
    serialize_one_field fuel fname (PgField.relatedObject items) ro Option.none ret
      = Except.ok ret := by
  have hc : ro.contains fname = false := by simpa using h
  unfold serialize_one_field
  simp [hc]
  exact fun hmem => absurd hmem h

/-- Processing one field only writes the keys `fname` and `fname_label`. -/
theorem serialize_one_field_preserves (fuel : Nat) (fname : String) (field : PgField)
    (ro : List String) (rf : Option (List String)) (ret ret2 : List (String × Py))
    (k : String) (hk1 : k ≠ fname) (hk2 : k ≠ fname ++ "_label")
    (h : serialize_one_field fuel fname field ro rf ret = Except.ok ret2) :
    dictGet? k ret2 = dictGet? k ret := by
  cases field <;>
    (unfold serialize_one_field at h
     simp only [] at h
     repeat' split at h) <;>
    first
      | rfl
      | (simp [dictGet?_insert_ne, hk1, hk2])
      | exact Except.noConfusion h
      | (injection h with h; subst h;
         simp [dictGet?_insert_ne, hk1, hk2])

/-- The field loop only ever writes keys named by its fields (or their
`_label` variants): every other key's lookup is unchanged. -/
theorem serialize_fields_preserves (fuel : Nat) :
    ∀ (fields : List (String × PgField)) (ro : List String) (rf : Option (List String))
      (ret ret2 : List (String × Py)) (k : String),
      (∀ f ∈ fields, k ≠ f.1 ∧ k ≠ f.1 ++ "_label") →
      serialize_fields fuel fields ro rf ret = Except.ok ret2 →
      dictGet? k ret2 = dictGet? k ret := by
  intro fields
  induction fields with
  | nil =>
    intro ro rf ret ret2 k _ h
    unfold serialize_fields at h
    injection h with h
    subst h
    rfl
  | cons f rest ih =>
    obtain ⟨fname, fld⟩ := f
    intro ro rf ret ret2 k hk h
    unfold serialize_fields at h
    cases hs : serialize_one_field fuel fname fld ro rf ret with
    | error e =>
      rw [hs] at h
      exact Except.noConfusion h
    | ok r1 =>
      rw [hs] at h
      simp only [] at h
      have h1 := serialize_one_field_preserves fuel fname fld ro rf ret r1 k
        (hk (fname, fld) (by simp)).1 (hk (fname, fld) (by simp)).2 hs
      rw [ih ro rf r1 ret2 k (fun f2 hf2 => hk f2 (List.mem_cons_of_mem _ hf2)) h, h1]

/-- Through the whole field loop, a `ForeignKey` field outside the recursion
directives ends up mapped to its cached identifier. -/
theorem serialize_fields_fk_lookup (fuel : Nat) :
    ∀ (fields : List (String × PgField)) (ro : List String)
      (ret0 ret : List (String × Py)) (name : String) (idv tgt : Py),
      serialize_fields fuel fields ro Option.none ret0 = Except.ok ret →
      (name, PgField.foreignKey idv tgt) ∈ fields →
      name ∉ ro →
      (fields.map (fun f => f.1)).Nodup →
      (∀ y ∈ fields.map (fun f => f.1), name ≠ y ++ "_label") →
      dictGet? name ret = some idv := by
  intro fields
  induction fields with
  | nil =>
    intro ro ret0 ret name idv tgt _ hmem
    cases hmem
  | cons f rest ih =>
    obtain ⟨fname, fld⟩ := f
    intro ro ret0 ret name idv tgt h hmem hro hnodup hlab
    have hnodup2 : ¬ fname ∈ rest.map (fun f => f.1) ∧ (rest.map (fun f => f.1)).Nodup := by
      simpa using hnodup
    rcases List.mem_cons.mp hmem with hhead | htail
    · have h1 : fname = name := (congrArg Prod.fst hhead).symm
      subst h1
      have h2 : fld = PgField.foreignKey idv tgt := (congrArg Prod.snd hhead).symm
      subst h2
      unfold serialize_fields at h
      rw [serialize_one_field_fk fuel fname idv tgt ro ret0 hro] at h
      simp only [] at h
      have hpres := serialize_fields_preserves fuel rest ro Option.none
        (dictInsert fname idv ret0) ret fname ?_ h
      · rw [hpres, dictGet?_insert_self]
      · intro f2 hf2
        refine ⟨fun hh => hnodup2.1 (hh ▸ List.mem_map_of_mem _ hf2), ?_⟩
        exact hlab f2.1 (List.mem_cons_of_mem _ (List.mem_map_of_mem _ hf2))
    · unfold serialize_fields at h
      cases hs : serialize_one_field fuel fname fld ro Option.none ret0 with
      | error e =>
        rw [hs] at h
        exact Except.noConfusion h
      | ok r1 =>
        rw [hs] at h
        simp only [] at h
        exact ih ro r1 ret name idv tgt h htail hro hnodup2.2
          (fun y hy => hlab y (List.mem_cons_of_mem _ hy))

/-- Through the whole field loop, a reverse-relation field outside the
recursion directives writes nothing under its name. -/
theorem serialize_fields_ro_lookup (fuel : Nat) :
    ∀ (fields : List (String × PgField)) (ro : List String)
      (ret0 ret : List (String × Py)) (name : String) (items : List Py),
      serialize_fields fuel fields ro Option.none ret0 = Except.ok ret →
      (name, PgField.relatedObject items) ∈ fields →
      name ∉ ro →
      (fields.map (fun f => f.1)).Nodup →
      (∀ y ∈ fields.map (fun f => f.1), name ≠ y ++ "_label") →
      dictGet? name ret = dictGet? name ret0 := by
  intro fields
  induction fields with
  | nil =>
    intro ro ret0 ret name items _ hmem
    cases hmem
  | cons f rest ih =>
    obtain ⟨fname, fld⟩ := f
    intro ro ret0 ret name items h hmem hro hnodup hlab
    have hnodup2 : ¬ fname ∈ rest.map (fun f => f.1) ∧ (rest.map (fun f => f.1)).Nodup := by
      simpa using hnodup
    rcases List.mem_cons.mp hmem with hhead | htail
    · have h1 : fname = name := (congrArg Prod.fst hhead).symm
      subst h1
      have h2 : fld = PgField.relatedObject items := (congrArg Prod.snd hhead).symm
      subst h2
      unfold serialize_fields at h
      rw [serialize_one_field_ro fuel fname items ro ret0 hro] at h
      simp only [] at h
      refine serialize_fields_preserves fuel rest ro Option.none ret0 ret fname ?_ h
      intro f2 hf2
      refine ⟨fun hh => hnodup2.1 (hh ▸ List.mem_map_of_mem _ hf2), ?_⟩
      exact hlab f2.1 (List.mem_cons_of_mem _ (List.mem_map_of_mem _ hf2))
    · unfold serialize_fields at h
      cases hs : serialize_one_field fuel fname fld ro Option.none ret0 with
      | error e =>
        rw [hs] at h
        exact Except.noConfusion h
      | ok r1 =>
        rw [hs] at h
        simp only [] at h
        have hname : name ∈ rest.map (fun f => f.1) := by
          simpa using List.mem_map_of_mem (fun f => f.1) htail
        have hne : name ≠ fname := fun hh => hnodup2.1 (hh ▸ hname)
        have hlabh : name ≠ fname ++ "_label" := hlab fname (by simp)
        have h1 := serialize_one_field_preserves fuel fname fld ro Option.none ret0 r1
          name hne hlabh hs
        rw [ih ro r1 ret name items h htail hro hnodup2.2
          (fun y hy => hlab y (List.mem_cons_of_mem _ hy)), h1]

/-- C5: serializing a record with no field projection emits, for every
`ForeignKey` field not listed in the recursion directives, exactly the
cached referenced identifier under the field's name, and omits every
reverse-relation field not listed in the recursion directives from the
output map entirely; in particular with empty recursion directives no
reverse-relation field ever appears. (Field names are assumed distinct, as
Django guarantees, and no other field's `_label` key may collide with the
name.) -/
theorem c5_fk_id_and_reverse_omitted (fuel : Nat) (fields : List (String × PgField))
    (ro : List String) (out : Py)
    (hnodup : (fields.map (fun f => f.1)).Nodup)
    (hser : serialize_object (fuel + 1) (Py.pyobj fields) ro Option.none = Except.ok out) :
    (∀ (name : String) (idv tgt : Py),
      (∀ y ∈ fields.map (fun f => f.1), name ≠ y ++ "_label") →
      (name, PgField.foreignKey idv tgt) ∈ fields → name ∉ ro →
      ∃ kvs, out = Py.pydict kvs ∧ dictGet? name kvs = some idv) ∧
    (∀ (name : String) (items : List Py),
      (∀ y ∈ fields.map (fun f => f.1), name ≠ y ++ "_label") →
      (name, PgField.relatedObject items) ∈ fields → name ∉ ro →
      ∃ kvs, out = Py.pydict kvs ∧ dictGet? name kvs = Option.none) := by
  unfold serialize_object at hser
  simp only [] at hser
  cases hf : serialize_fields fuel fields ro Option.none [] with
  | error e =>
    rw [hf] at hser
    exact Except.noConfusion hser
  | ok ret =>
    rw [hf] at hser
    simp only [] at hser
    injection hser with hser
    subst hser
    constructor
    · intro name idv tgt hlab hmem hro
      exact ⟨ret, rfl, serialize_fields_fk_lookup fuel fields ro [] ret name idv tgt
        hf hmem hro hnodup hlab⟩
    · intro name items hlab hmem hro
      refine ⟨ret, rfl, ?_⟩
      rw [serialize_fields_ro_lookup fuel fields ro [] ret name items
        hf hmem hro hnodup hlab]
      rfl

/-- Witness for C5: the example record serializes with the foreign key
`author` reduced to its identifier 42 and the reverse relation `comments`
absent from the output. -/
theorem c5_fk_id_and_reverse_omitted_witness :
    ((exampleRecord.map (fun f => f.1)).Nodup) ∧
    (serialize_object 2 (Py.pyobj exampleRecord) [] Option.none
      = Except.ok (Py.pydict [("title", Py.pystr "a title"), ("author", Py.pyint 42)])) ∧
    (∃ kvs, Py.pydict [("title", Py.pystr "a title"), ("author", Py.pyint 42)] = Py.pydict kvs ∧
      dictGet? "author" kvs = some (Py.pyint 42)) ∧
    (∃ kvs, Py.pydict [("title", Py.pystr "a title"), ("author", Py.pyint 42)] = Py.pydict kvs ∧
      dictGet? "comments" kvs = Option.none) :=
  ⟨by decide, rfl,
    (c5_fk_id_and_reverse_omitted 1 exampleRecord []
        (Py.pydict [("title", Py.pystr "a title"), ("author", Py.pyint 42)])
        (by decide) rfl).1 "author" (Py.pyint 42)
      (Py.pyobj [("name", PgField.plain Option.none (Py.pystr "someone"))])
      (by decide)
      (List.mem_cons_of_mem _ (List.mem_cons_self _ _))
      (by decide),
    (c5_fk_id_and_reverse_omitted 1 exampleRecord []
        (Py.pydict [("title", Py.pystr "a title"), ("author", Py.pyint 42)])
        (by decide) rfl).2 "comments" [Py.pyobj []]
      (by decide)
      (List.mem_cons_of_mem _ (List.mem_cons_of_mem _ (List.mem_cons_self _ _)))
      (by decide)⟩

end SimpleGetApi
